import Mathlib

/-!
Shallow embedding of `scripts/Evaluator.py` (AmrEvaluator, UccaEvaluator,
MTEvaluator) and proofs about its behaviour.

Modelling conventions:
* Python strings are Lean `String`; file contents are strings; the file
  system is an association list from path to content, where a write
  prepends (so a later write to the same path shadows the earlier one,
  like opening a file in write mode).
* Side effects (file reads and writes, subprocess invocations, setting an
  environment variable, logger calls) are recorded in an explicit trace of
  `Eff` events; effectful functions return their result together with the
  updated world and the list of events they performed, in order.
* Python exceptions are `Except PyErr`; an uncaught exception aborts the
  function, exactly as in the source.
* External collaborators (model, tokenizer, subprocess binaries, the UCCA
  parser, the MRP converter, the BLEU metric, the json module) are
  parameters or oracle fields of the world; the code under verification is
  the orchestration logic of `Evaluator.py` itself.
* Floating point numbers are modelled as rationals.
-/

set_option autoImplicit false

/-! ### Python-style string helpers -/

/-- Split a list of characters at every occurrence of the separator
character; like `str.split`, the result always has one more part than
there are separators. -/
def splitChar (c : Char) : List Char → List (List Char)
  | [] => [[]]
  | x :: rest =>
    if x = c then [] :: splitChar c rest
    else
      match splitChar c rest with
      | [] => [[x]]
      | l :: ls => (x :: l) :: ls

/-- Join parts with the given separator character; inverse of `splitChar`. -/
def joinChar (c : Char) : List (List Char) → List Char
  | [] => []
  | [l] => l
  | l :: ls => l ++ c :: joinChar c ls

/-- Split at newline characters. -/
def splitNl (cs : List Char) : List (List Char) := splitChar '\n' cs

/-- Model of the Python `str.splitlines` method (and of
`readlines` followed by stripping the trailing newline of each line),
restricted to the newline character: every line of the string, without a
trailing empty line for a trailing newline. -/
def pySplitlines (s : String) : List String :=
  let ps := splitNl s.data
  (if ps.getLast? = some [] then ps.dropLast else ps).map (fun l => String.mk l)

/-- The lines of a file written as a sequence of newline-terminated
records: every maximal newline-free segment, dropping the final (empty)
segment after the last newline. -/
def fileLines (s : String) : List String :=
  ((splitNl s.data).dropLast).map (fun l => String.mk l)

/-- Concatenation of the given lines, each terminated by a newline; this is
the content produced by loops of the shape `f.write(x); f.write("\n")`. -/
def linesJoin : List String → String
  | [] => ""
  | s :: rest => s ++ "\n" ++ linesJoin rest

/-- Last component of a slash-separated path, like `pathlib.Path.name`
for the paths this program builds. -/
def pathName (p : String) : String :=
  String.mk (((splitChar '/' p.data).getLast?).getD p.data)

/-- All but the last component of a slash-separated path, like
`pathlib.Path.parent` for the paths this program builds. -/
def pathParent (p : String) : String :=
  String.mk (joinChar '/' ((splitChar '/' p.data).dropLast))

/-- Decimal digit character for a value below ten. -/
def digitChar10 (n : Nat) : Char := Char.ofNat (48 + n % 10)

/-- Decimal digits of a natural number, least significant first, with an
explicit structural fuel so that the definition reduces in the kernel. -/
def natDigitsRev (fuel n : Nat) : List Char :=
  match fuel with
  | 0 => []
  | fuel + 1 => if n = 0 then [] else digitChar10 (n % 10) :: natDigitsRev fuel (n / 10)

/-- Decimal representation of a natural number, like `str` on a Python int. -/
def natRepr (n : Nat) : String :=
  if n = 0 then "0" else String.mk (natDigitsRev n n).reverse

/-- Decimal representation of an integer, like `str` on a Python int. -/
def intRepr : Int → String
  | Int.ofNat n => natRepr n
  | Int.negSucc n => "-" ++ natRepr (n + 1)

/-- Model of `numpy.mean` on a list of rationals. On the empty list numpy
returns NaN; rationals have no NaN, and the (unreachable for the claims
proved here) value is `0`. -/
def npMean (l : List ℚ) : ℚ := l.sum / l.length

/-! ### JSON values and their serialization

Model of the JSON values handled by the Python `json` module in this file.
Numbers are modelled as integers and as decimal-exponent floats
(`m * 10 ^ (-e)`), which covers the records this program writes; the
serialization of a float uses the exponent form (`me-e`), a valid JSON
number spelling. Serialization follows `json.dump` with its default
separators and `ensure_ascii=True`. -/

mutual
inductive JsonVal where
  | null : JsonVal
  | boolV : Bool → JsonVal
  | intV : Int → JsonVal
  | floatV : Int → Nat → JsonVal
  | strV : String → JsonVal
  | arrV : JsonArr → JsonVal
  | objV : JsonObj → JsonVal
inductive JsonArr where
  | nil : JsonArr
  | cons : JsonVal → JsonArr → JsonArr
inductive JsonObj where
  | nil : JsonObj
  | cons : String → JsonVal → JsonObj → JsonObj
end

/-- Four hexadecimal digits (lowercase), as in a JSON `\uXXXX` escape. -/
def hexDigit (n : Nat) : Char :=
  if n < 10 then Char.ofNat (48 + n) else Char.ofNat (87 + n)

/-- Four-digit hexadecimal rendering of a code unit. -/
def hex4 (n : Nat) : String :=
  String.mk [hexDigit (n / 4096 % 16), hexDigit (n / 256 % 16),
             hexDigit (n / 16 % 16), hexDigit (n % 16)]

/-- Escape of a single character inside a JSON string literal, following
the `ensure_ascii=True` encoder of the Python `json` module: the two JSON
metacharacters and the short control escapes, `\uXXXX` for the remaining
characters outside the printable ASCII range (with a surrogate pair above
the basic plane). -/
def escChar (c : Char) : String :=
  if c = '"' then "\\\""
  else if c = '\\' then "\\\\"
  else if c = '\n' then "\\n"
  else if c = '\t' then "\\t"
  else if c = '\r' then "\\r"
  else if c.toNat = 8 then "\\b"
  else if c.toNat = 12 then "\\f"
  else if c.toNat < 32 ∨ 127 ≤ c.toNat then
    if c.toNat < 65536 then "\\u" ++ hex4 c.toNat
    else "\\u" ++ hex4 (55296 + (c.toNat - 65536) / 1024) ++
      "\\u" ++ hex4 (56320 + (c.toNat - 65536) % 1024)
  else String.mk [c]

/-- Escape every character of a string for a JSON string literal. -/
def escapeChars : List Char → String
  | [] => ""
  | c :: cs => escChar c ++ escapeChars cs

/-- JSON string-literal escaping of a whole string. -/
def jsonEscape (s : String) : String := escapeChars s.data

mutual
/-- Serialization of a JSON value, following `json.dump` with default
separators (`, ` between items, `: ` after a key). -/
def jsonSerialize : JsonVal → String
  | JsonVal.null => "null"
  | JsonVal.boolV true => "true"
  | JsonVal.boolV false => "false"
  | JsonVal.intV n => intRepr n
  | JsonVal.floatV m e => intRepr m ++ "e-" ++ natRepr e
  | JsonVal.strV s => "\"" ++ jsonEscape s ++ "\""
  | JsonVal.arrV a => "[" ++ serializeArr a ++ "]"
  | JsonVal.objV o => "\x7b" ++ serializeObj o ++ "\x7d"
def serializeArr : JsonArr → String
  | JsonArr.nil => ""
  | JsonArr.cons v JsonArr.nil => jsonSerialize v
  | JsonArr.cons v (JsonArr.cons w rest) =>
      jsonSerialize v ++ ", " ++ serializeArr (JsonArr.cons w rest)
def serializeObj : JsonObj → String
  | JsonObj.nil => ""
  | JsonObj.cons k v JsonObj.nil => "\"" ++ jsonEscape k ++ "\": " ++ jsonSerialize v
  | JsonObj.cons k v (JsonObj.cons k2 v2 rest) =>
      "\"" ++ jsonEscape k ++ "\": " ++ jsonSerialize v ++ ", " ++
        serializeObj (JsonObj.cons k2 v2 rest)
end

/-! ### Effects, exceptions and the world

The world holds the file system and the oracles for the external
subprocess binaries and the Python standard library routines that this
file calls but does not implement (`smatch`, the AMR postprocessing
pipeline, `mtool`, `json.loads`, `float`). Every effectful operation also
reports the ordered list of observable events it performed. -/

/-- Observable side effects of the evaluators. -/
inductive Eff where
  | readF : String → Eff
  | writeF : String → String → Eff
  | procCall : List String → Eff
  | setEnvVar : String → String → Eff
  | logInfo : String → Eff
deriving DecidableEq, Repr

/-- The Python exceptions that can reach the code under verification. -/
inductive PyErr where
  | calledProcessError : List String → Nat → PyErr
  | assertionError : PyErr
  | fileNotFoundError : String → PyErr
  | keyError : String → PyErr
  | typeError : PyErr
  | valueError : PyErr
  | indexError : PyErr
  | runtimeError : PyErr
  | zeroDivisionError : PyErr
deriving DecidableEq, Repr

structure World where
  fs : List (String × String)
  procExit : List String → Nat
  procFiles : List String → List (String × String)
  procOut : List String → String
  jsonLoads : String → Except PyErr JsonVal
  pyFloat : String → Except PyErr ℚ

/-- Replace the file system of a world. -/
def World.withFs (w : World) (fs : List (String × String)) : World :=
  ⟨fs, w.procExit, w.procFiles, w.procOut, w.jsonLoads, w.pyFloat⟩

/-- First-match lookup in the file system; the most recent write wins. -/
def fsLookup : List (String × String) → String → Option String
  | [], _ => none
  | (q, c) :: rest, p => if q = p then some c else fsLookup rest p

/-- Open a file for reading; `FileNotFoundError` when the path is absent. -/
def fsRead (w : World) (p : String) : Except PyErr String :=
  match fsLookup w.fs p with
  | some c => Except.ok c
  | none => Except.error (PyErr.fileNotFoundError p)

/-- Open a file in write mode and write the full content. -/
def fsWrite (w : World) (p c : String) : World :=
  w.withFs ((p, c) :: w.fs)

/-- Run an external process: its exit code comes from the oracle and the
files that it writes are added to the file system. -/
def runProcess (w : World) (args : List String) : Nat × World :=
  (w.procExit args, w.withFs (w.procFiles args ++ w.fs))

/-- Model of `subprocess.check_call`: raises `CalledProcessError` when the
exit code is non-zero. -/
def checkCall (w : World) (args : List String) : Except PyErr Unit × World × List Eff :=
  let r := runProcess w args
  (if r.1 = 0 then Except.ok () else Except.error (PyErr.calledProcessError args r.1),
   r.2, [Eff.procCall args])

/-- Model of `subprocess.check_output`: as `check_call`, but returns the
standard output of the process on success. -/
def checkOutput (w : World) (args : List String) : Except PyErr String × World × List Eff :=
  let r := runProcess w args
  (if r.1 = 0 then Except.ok (w.procOut args) else Except.error (PyErr.calledProcessError args r.1),
   r.2, [Eff.procCall args])

/-- Value of an environment variable after replaying the trace over an
initial value. -/
def envValueAfter (name v : String) : List Eff → String
  | [] => v
  | Eff.setEnvVar n x :: rest => envValueAfter name (if n = name then x else v) rest
  | _ :: rest => envValueAfter name v rest

/-- String rendering of an exception, as the logger would print it. -/
def errString : PyErr → String
  | PyErr.calledProcessError _ code =>
      "Command returned non-zero exit status " ++ natRepr code ++ "."
  | PyErr.assertionError => "AssertionError"
  | PyErr.fileNotFoundError p => "FileNotFoundError: " ++ p
  | PyErr.keyError k => "KeyError: " ++ k
  | PyErr.typeError => "TypeError"
  | PyErr.valueError => "ValueError"
  | PyErr.indexError => "IndexError"
  | PyErr.runtimeError => "RuntimeError"
  | PyErr.zeroDivisionError => "ZeroDivisionError"

/-! ### External collaborators: tokenizer, model, batches -/

/-- A batch produced by the dataloader: a mapping with `input_ids`,
`attention_mask` and `labels` fields, each a list of token id sequences. -/
structure Batch where
  input_ids : List (List Nat)
  attention_mask : List (List Nat)
  labels : List (List Nat)

/-- Arguments this file passes to `model.generate`. -/
structure GenArgs where
  input_ids : List (List Nat)
  attention_mask : List (List Nat)
  decoder_start_token_id : Nat
  forced_bos_token_id : Option Nat
  bad_words_ids : Option (List (List Nat))
  num_beams : Nat

/-- The tokenizer collaborator. `tokenizeBatch` models calling the
tokenizer itself with `add_special_tokens=False` and taking `input_ids`. -/
structure Tokenizer where
  convert_tokens_to_ids : List String → List Nat
  batch_decode : List (List Nat) → List String
  tokenizeBatch : List String → List (List Nat)

/-- The model collaborator: a forward pass returning the loss, and
beam-search generation returning one token sequence per input row. -/
structure Model where
  forward : Batch → ℚ
  generate : GenArgs → List (List Nat)

/-! ### Settings constants

The `settings` module is not under src; the values of these constants are
deployment-specific paths and codes, fixed here to representative strings.
No claim depends on their concrete values. -/

def AMR_SCRIPT : String := "amr_utils"

def CHINESE_VOCAB : String := "chinese_vocab.txt"

def CHINESE_VOCAB_PAD : String := "chinese_vocab_pad.txt"

/-- Value of `mbart_lang_code_maps` at key `en` (the mBART code for
English). -/
def mbart_lang_code_map_en : String := "en_XX"

/-- Rendering of `n_step` inside `"step_" + format`, including the Python
rendering of `None`. -/
def nStepRepr : Option Nat → String
  | none => "None"
  | some n => natRepr n

/-! ### AmrEvaluator -/

/-- State of an `AmrEvaluator` object. The constructor also sets the unused
constant `keep_output_every_n = 100` and puts the model into eval mode;
neither is observable in this model. `n_step` is the attribute assigned by
`run_eval`, absent until then. -/
structure AmrEvaluator where
  tokenizer : Tokenizer
  model : Model
  dataloader : List Batch
  eval_gold_file : String
  sent_path : String
  pred_save_dir : String
  src_lang : String
  n_step : Option Nat

def AmrEvaluator.withStep (e : AmrEvaluator) (n : Option Nat) : AmrEvaluator :=
  ⟨e.tokenizer, e.model, e.dataloader, e.eval_gold_file, e.sent_path,
   e.pred_save_dir, e.src_lang, n⟩

/-- Last element of a list, raising `IndexError` on an empty list, as
Python indexing with `-1` does. -/
def pyLastOf : List Nat → Except PyErr Nat
  | [] => Except.error PyErr.indexError
  | [x] => Except.ok x
  | _ :: y :: rest => pyLastOf (y :: rest)

/-- The comprehension `[[bad_word_id[-1]] for bad_word_id in ids]`. -/
def lastsOf : List (List Nat) → Except PyErr (List (List Nat))
  | [] => Except.ok []
  | l :: rest =>
    match pyLastOf l with
    | Except.error e => Except.error e
    | Except.ok x =>
      match lastsOf rest with
      | Except.error e => Except.error e
      | Except.ok xs => Except.ok ([x] :: xs)

/-- The bad-words computation of `AmrEvaluator.gen_outputs` for a Chinese
source language, from the contents of the two vocabulary files. -/
def computeBadWordsIds (tok : Tokenizer) (vocab pad : String) :
    Except PyErr (List (List Nat)) :=
  let chinese_tok := pySplitlines vocab
  let chinese_tok_ids := tok.tokenizeBatch chinese_tok
  let chinese_subtok_padded := pySplitlines pad
  let chinese_subtok_padded_ids := tok.tokenizeBatch chinese_subtok_padded
  match lastsOf chinese_subtok_padded_ids with
  | Except.error e => Except.error e
  | Except.ok chinese_subtok_ids =>
      Except.ok ((chinese_tok_ids ++ chinese_subtok_ids).filter (fun ele => !ele.isEmpty))

/-- The generation loop of `AmrEvaluator.gen_outputs`: per batch, a forward
pass collecting the loss, then beam-search generation (beam width 5) with
the fixed decoder start and forced beginning-of-sequence tokens, decoded
and appended in order. -/
def amrGenLoop (tok : Tokenizer) (model : Model) (decStart : Nat)
    (badWords : Option (List (List Nat))) : List Batch → List String × List ℚ
  | [] => ([], [])
  | b :: rest =>
    let loss := model.forward b
    let forcedBos := (tok.convert_tokens_to_ids ["("]).headD 0
    let gen := model.generate ⟨b.input_ids, b.attention_mask, decStart, some forcedBos, badWords, 5⟩
    let toks := tok.batch_decode gen
    let r := amrGenLoop tok model decStart badWords rest
    (toks ++ r.1, loss :: r.2)

/-- `AmrEvaluator.gen_outputs`: computes the decoder start token, for a
Chinese source language reads the two vocabulary files and builds the
bad-words list, then runs the generation loop over the dataloader.
Returns (predictions, losses). -/
def AmrEvaluator.gen_outputs (e : AmrEvaluator) (w : World) :
    Except PyErr (List String × List ℚ) × List Eff :=
  let decStart := (e.tokenizer.convert_tokens_to_ids ["amr"]).headD 0
  if e.src_lang = "zh" then
    match fsRead w CHINESE_VOCAB with
    | Except.error err => (Except.error err, [])
    | Except.ok vocab =>
      match fsRead w CHINESE_VOCAB_PAD with
      | Except.error err => (Except.error err, [Eff.readF CHINESE_VOCAB])
      | Except.ok pad =>
        match computeBadWordsIds e.tokenizer vocab pad with
        | Except.error err =>
            (Except.error err, [Eff.readF CHINESE_VOCAB, Eff.readF CHINESE_VOCAB_PAD])
        | Except.ok bw =>
            (Except.ok (amrGenLoop e.tokenizer e.model decStart (some bw) e.dataloader),
             [Eff.readF CHINESE_VOCAB, Eff.readF CHINESE_VOCAB_PAD])
  else
    (Except.ok (amrGenLoop e.tokenizer e.model decStart none e.dataloader), [])

/-- Modelled from the spec: `save_predictions` from `eval_utils` (not under
src). Section 6 of the spec describes prediction files as plain text, one
sentence per line, written under the given path; the call returns the path
of the file it wrote. -/
def save_predictions (w : World) (preds : List String) (save_to : String) :
    String × World × List Eff :=
  (save_to, fsWrite w save_to (linesJoin preds), [Eff.writeF save_to (linesJoin preds)])

/-- Modelled from the spec: `amr_postprocessing` from `eval_utils` (not
under src). Sections 4.1 and 7 of the spec describe it as a postprocessing
step run as a subprocess that may exit non-zero, raising
`CalledProcessError`. -/
def amr_postprocessing (w : World) (pred_file sent_path : String) :
    Except PyErr Unit × World × List Eff :=
  checkCall w ["amr_postprocessing", pred_file, sent_path]

/-- The argument vector of the smatch scoring subprocess for a given
prediction file and reference file. -/
def smatchArgs (pred_path ref_path : String) : List String :=
  ["python", "smatch/smatch.py", "-f",
   pathParent pred_path ++ "/" ++ (pathName pred_path ++ ".restore.pruned.coref.all.form"),
   ref_path, "-r", "5", "--significant", "3"]

/-- `AmrEvaluator.compute_smatch`: asserts that the reference file exists,
invokes the smatch script (inside `cd(AMR_SCRIPT)`, which only changes the
working directory), then reads the resulting score from the fixed result
file and parses it as a float. -/
def AmrEvaluator.compute_smatch (w : World) (pred_path ref_path : String) :
    Except PyErr ℚ × World × List Eff :=
  let computed_smatch := AMR_SCRIPT ++ "/smatch/f_score.txt"
  if (fsLookup w.fs ref_path).isSome then
    match checkCall w (smatchArgs pred_path ref_path) with
    | (Except.error err, w2, tr) => (Except.error err, w2, tr)
    | (Except.ok _, w2, tr) =>
      match fsRead w2 computed_smatch with
      | Except.error err => (Except.error err, w2, tr)
      | Except.ok content =>
        match w2.pyFloat content.trim with
        | Except.error err => (Except.error err, w2, tr ++ [Eff.readF computed_smatch])
        | Except.ok q => (Except.ok q, w2, tr ++ [Eff.readF computed_smatch])
  else
    (Except.error PyErr.assertionError, w, [])

/-- The path of the raw AMR prediction file for a given step. -/
def amrPredSaveTo (e : AmrEvaluator) : String :=
  e.pred_save_dir ++ "/step_" ++ nStepRepr e.n_step ++ "/" ++ e.src_lang ++ "/pred.txt.tf"

/-- `AmrEvaluator.run_eval`: sets `n_step`, generates, saves predictions,
then inside a try block sets the tokenizers-parallelism flag to false, runs
postprocessing and smatch and restores the flag; a `CalledProcessError`
from either subprocess is caught, logged, and replaced by a zero score.
Other exceptions propagate. Returns (mean eval loss, smatch). -/
def AmrEvaluator.run_eval (e : AmrEvaluator) (w : World) (n_step : Option Nat) :
    Except PyErr (ℚ × ℚ) × AmrEvaluator × World × List Eff :=
  let e2 := e.withStep n_step
  match e2.gen_outputs w with
  | (Except.error err, tr0) => (Except.error err, e2, w, tr0)
  | (Except.ok (eval_predictions, eval_losses), tr0) =>
    let r1 := save_predictions w eval_predictions (amrPredSaveTo e2)
    let eval_pred_file := r1.1
    let w1 := r1.2.1
    let eval_loss := npMean eval_losses
    let tr2 := tr0 ++ r1.2.2 ++ [Eff.setEnvVar "TOKENIZERS_PARALLELISM" "false"]
    match amr_postprocessing w1 eval_pred_file e2.sent_path with
    | (Except.error (PyErr.calledProcessError a c), w2, trp) =>
        (Except.ok (eval_loss, 0), e2, w2,
         tr2 ++ trp ++ [Eff.logInfo (errString (PyErr.calledProcessError a c))])
    | (Except.error err, w2, trp) => (Except.error err, e2, w2, tr2 ++ trp)
    | (Except.ok _, w2, trp) =>
      match AmrEvaluator.compute_smatch w2 eval_pred_file e2.eval_gold_file with
      | (Except.error (PyErr.calledProcessError a c), w3, trs) =>
          (Except.ok (eval_loss, 0), e2, w3,
           tr2 ++ trp ++ trs ++ [Eff.logInfo (errString (PyErr.calledProcessError a c))])
      | (Except.error err, w3, trs) => (Except.error err, e2, w3, tr2 ++ trp ++ trs)
      | (Except.ok smatch, w3, trs) =>
          (Except.ok (eval_loss, smatch), e2, w3,
           tr2 ++ trp ++ trs ++ [Eff.setEnvVar "TOKENIZERS_PARALLELISM" "true"])

/-! ### UccaEvaluator -/

/-- State of a `UccaEvaluator` object. As for AMR, the unused constant
`keep_output_every_n` and the eval-mode call are not observable. `n_step`
is the attribute assigned by `run_eval`, absent until then. -/
structure UccaEvaluator where
  tokenizer : Tokenizer
  model : Model
  dataloader : List Batch
  src_lang : String
  pred_save_dir : String
  split : String
  gold_mrp_save_to : String
  pred_mrp_save_to : String
  toy_graph : String
  toy_sent : String
  gold_graphs : List String
  sents : List String
  n_step : Option Nat

def UccaEvaluator.withStep (e : UccaEvaluator) (n : Option Nat) : UccaEvaluator :=
  ⟨e.tokenizer, e.model, e.dataloader, e.src_lang, e.pred_save_dir, e.split,
   e.gold_mrp_save_to, e.pred_mrp_save_to, e.toy_graph, e.toy_sent,
   e.gold_graphs, e.sents, n⟩

/-- The toy graph literal of `UccaEvaluator.__init__`. -/
def toyGraphLit : String :=
  "[ <root_0> H [ <H_0> D [ <D_0> T [ Highly ] ] S [ <S_0> T [ recommended ] ] ] ]"

/-- `UccaEvaluator.__init__`: stores the collaborators and configuration,
derives the two fixed MRP output paths from `pred_save_dir` and `split`,
sets the toy graph and toy sentence, and eagerly reads the gold graphs and
the sentences from their files, split into lines. -/
def UccaEvaluator.init (tokenizer : Tokenizer) (model : Model) (dataloader : List Batch)
    (w : World) (eval_gold_file sent_path pred_save_dir split src_lang : String) :
    Except PyErr UccaEvaluator × List Eff :=
  match fsLookup w.fs eval_gold_file with
  | none => (Except.error (PyErr.fileNotFoundError eval_gold_file), [])
  | some g =>
    match fsLookup w.fs sent_path with
    | none => (Except.error (PyErr.fileNotFoundError sent_path), [Eff.readF eval_gold_file])
    | some s =>
      (Except.ok
        ⟨tokenizer, model, dataloader, src_lang, pred_save_dir, split,
         pred_save_dir ++ "/" ++ split ++ ".gold.mrp",
         pred_save_dir ++ "/" ++ split ++ ".pred.mrp",
         toyGraphLit, "Highly recommended",
         pySplitlines g, pySplitlines s, none⟩,
       [Eff.readF eval_gold_file, Eff.readF sent_path])

/-- `UccaEvaluator.save_prediction_raw`: writes the raw predictions, one
per line, under the step directory (the `mkdir` call has no observable
counterpart in this file-system model). -/
def UccaEvaluator.save_prediction_raw (e : UccaEvaluator) (w : World)
    (predictions : List String) : World × List Eff :=
  let path := e.pred_save_dir ++ "/step_" ++ nStepRepr e.n_step ++ "/ucca.pred.tf"
  (fsWrite w path (linesJoin predictions), [Eff.writeF path (linesJoin predictions)])

/-- The generation loop of `UccaEvaluator.gen_outputs`; as the AMR loop but
with the UCCA decoder start token, a forced `[` beginning-of-sequence
token, and no bad-words list. -/
def uccaGenLoop (tok : Tokenizer) (model : Model) (decStart : Nat) :
    List Batch → List String × List ℚ
  | [] => ([], [])
  | b :: rest =>
    let loss := model.forward b
    let forcedBos := (tok.convert_tokens_to_ids ["["]).headD 0
    let gen := model.generate ⟨b.input_ids, b.attention_mask, decStart, some forcedBos, none, 5⟩
    let toks := tok.batch_decode gen
    let r := uccaGenLoop tok model decStart rest
    (toks ++ r.1, loss :: r.2)

/-- `UccaEvaluator.gen_outputs`: the generation loop over the dataloader,
followed by persisting the raw predictions to disk. -/
def UccaEvaluator.gen_outputs (e : UccaEvaluator) (w : World) :
    (List String × List ℚ) × World × List Eff :=
  let decStart := (e.tokenizer.convert_tokens_to_ids ["ucca"]).headD 0
  let r := uccaGenLoop e.tokenizer e.model decStart e.dataloader
  let s := e.save_prediction_raw w r.1
  (r, s.1, s.2)

/-- The body of the loop of `delinearize_to_tree` over `zip(graphs, sents)`
(in the source the loop variable shadows the `graphs` parameter, which is
harmless because `zip` captures the original lists before the first
iteration; the `sent` component is never used). Each item is parsed by a
fresh `UccaParser`; on any failure the toy graph is parsed instead. A
failure of the toy parse itself (impossible for the real parser on the
well-formed toy literal) would escape the bare except block and abort. -/
def delinLoop {T : Type} (parse_ucca : String → Option T) (toy : String) :
    List (String × String) → Except PyErr (List T)
  | [] => Except.ok []
  | (g, _) :: rest =>
    let tOpt := match parse_ucca g with
                | some t => some t
                | none => parse_ucca toy
    match tOpt with
    | none => Except.error PyErr.valueError
    | some t =>
      match delinLoop parse_ucca toy rest with
      | Except.error e => Except.error e
      | Except.ok ts => Except.ok (t :: ts)

/-- `UccaEvaluator.delinearize_to_tree`, parameterized by the external
`UccaParser.parse_ucca` (not under src), modelled as a partial parsing
function into an abstract tree type. -/
def UccaEvaluator.delinearize_to_tree {T : Type} (parse_ucca : String → Option T)
    (e : UccaEvaluator) (graphs sents : List String) : Except PyErr (List T) :=
  delinLoop parse_ucca e.toy_graph (graphs.zip sents)

/-- `UccaEvaluator.reformat_to_mrp`, parameterized by the external
`UccaMRPConverter` (not under src), modelled as a function from a tree, its
sentence and its index to a JSON-serializable record. -/
def UccaEvaluator.reformat_to_mrp {T : Type} (convert : T → String → Nat → JsonVal)
    (trees : List T) (sents : List String) : List JsonVal :=
  ((trees.zip sents).enum).map (fun p => convert p.2.1 p.2.2 p.1)

/-- `UccaEvaluator.write_mrp`: opens the file in write mode and writes one
JSON object per line via `json.dump` plus a newline. -/
def UccaEvaluator.write_mrp (w : World) (save_to : String) (data : List JsonVal) :
    World × List Eff :=
  (fsWrite w save_to (linesJoin (data.map jsonSerialize)),
   [Eff.writeF save_to (linesJoin (data.map jsonSerialize))])

/-- Lookup of a key in a JSON object, `KeyError` when absent. -/
def objLookup : JsonObj → String → Except PyErr JsonVal
  | JsonObj.nil, k => Except.error (PyErr.keyError k)
  | JsonObj.cons k0 v rest, k => if k0 = k then Except.ok v else objLookup rest k

/-- Subscripting a JSON value with a string key; `TypeError` when the value
is not an object. -/
def jsonSubscript (v : JsonVal) (k : String) : Except PyErr JsonVal :=
  match v with
  | JsonVal.objV o => objLookup o k
  | _ => Except.error PyErr.typeError

/-- Numeric value of a JSON number; `TypeError` otherwise (as raised by
`round` on a non-number). -/
def jsonToRat : JsonVal → Except PyErr ℚ
  | JsonVal.intV n => Except.ok (n : ℚ)
  | JsonVal.floatV m e => Except.ok ((m : ℚ) / ((10 : ℚ) ^ e))
  | _ => Except.error PyErr.typeError

/-- Model of the Python `round(x, 3)`: scale by 1000, round half to even,
scale back. -/
def pyRound3 (q : ℚ) : ℚ :=
  let scaled := q * 1000
  let fl := ⌊scaled⌋
  let frac := scaled - fl
  let n := if frac < 1/2 then fl
           else if frac > 1/2 then fl + 1
           else if fl % 2 = 0 then fl else fl + 1
  (n : ℚ) / 1000

/-- The argument vector of the mtool scoring subprocess. -/
def mtoolArgs (gold_file pred_file : String) : List String :=
  ["mtool", "--score", "ucca", "--read", "mrp", "--gold", gold_file, pred_file]

/-- `UccaEvaluator.compute_ucca`: sets the tokenizers-parallelism flag to
false, captures the output of `mtool`, parses it as JSON, extracts the
labeled primary f field, restores the flag and returns the score rounded
to three digits. Any failure propagates (and skips the restore). -/
def UccaEvaluator.compute_ucca (w : World) (gold_file pred_file : String) :
    Except PyErr ℚ × World × List Eff :=
  let tr0 := [Eff.setEnvVar "TOKENIZERS_PARALLELISM" "false"]
  match checkOutput w (mtoolArgs gold_file pred_file) with
  | (Except.error err, w2, tr) => (Except.error err, w2, tr0 ++ tr)
  | (Except.ok out, w2, tr) =>
    match w2.jsonLoads out with
    | Except.error err => (Except.error err, w2, tr0 ++ tr)
    | Except.ok report =>
      match jsonSubscript report "labeled" with
      | Except.error err => (Except.error err, w2, tr0 ++ tr)
      | Except.ok labeled =>
        match jsonSubscript labeled "primary" with
        | Except.error err => (Except.error err, w2, tr0 ++ tr)
        | Except.ok primary =>
          match jsonSubscript primary "f" with
          | Except.error err => (Except.error err, w2, tr0 ++ tr)
          | Except.ok fval =>
            match jsonToRat fval with
            | Except.error err => (Except.error err, w2, tr0 ++ tr)
            | Except.ok ucca_f1 =>
                (Except.ok (pyRound3 ucca_f1), w2,
                 tr0 ++ tr ++ [Eff.setEnvVar "TOKENIZERS_PARALLELISM" "true"])

/-- `UccaEvaluator.run_eval`: sets `n_step`, generates (persisting raw
predictions), delinearizes both the gold graphs and the predictions
against the stored sentences, reformats both to MRP records, writes both
MRP files, and scores them with mtool. Returns (mean loss, f1). -/
def UccaEvaluator.run_eval {T : Type} (parse_ucca : String → Option T)
    (convert : T → String → Nat → JsonVal) (e : UccaEvaluator) (w : World)
    (n_step : Option Nat) :
    Except PyErr (ℚ × ℚ) × UccaEvaluator × World × List Eff :=
  let e2 := e.withStep n_step
  let g := e2.gen_outputs w
  let predictions := g.1.1
  let losses := g.1.2
  let w1 := g.2.1
  let tr1 := g.2.2
  let loss := npMean losses
  match e2.delinearize_to_tree parse_ucca e2.gold_graphs e2.sents with
  | Except.error err => (Except.error err, e2, w1, tr1)
  | Except.ok gold_trees =>
    match e2.delinearize_to_tree parse_ucca predictions e2.sents with
    | Except.error err => (Except.error err, e2, w1, tr1)
    | Except.ok pred_trees =>
      let gold_mrp_format := UccaEvaluator.reformat_to_mrp convert gold_trees e2.sents
      let pred_mrp_format := UccaEvaluator.reformat_to_mrp convert pred_trees e2.sents
      let wg := UccaEvaluator.write_mrp w1 e2.gold_mrp_save_to gold_mrp_format
      let wp := UccaEvaluator.write_mrp wg.1 e2.pred_mrp_save_to pred_mrp_format
      let tr3 := tr1 ++ wg.2 ++ wp.2
      match UccaEvaluator.compute_ucca wp.1 e2.gold_mrp_save_to e2.pred_mrp_save_to with
      | (Except.error err, w4, tr4) => (Except.error err, e2, w4, tr3 ++ tr4)
      | (Except.ok ucca_f1, w4, tr4) => (Except.ok (loss, ucca_f1), e2, w4, tr3 ++ tr4)

/-! ### MTEvaluator -/

/-- Rendering of a rational in log messages (the Python code prints a
tensor float; the exact rendering is not claim-relevant). -/
def ratRepr (q : ℚ) : String := intRepr q.num ++ "/" ++ natRepr q.den

/-- State of an `MTEvaluator` object: one dataloader per source language
(the Python dict preserves insertion order, modelled as an ordered
association list), target language fixed to the mBART code for English. -/
structure MTEvaluator where
  tokenizer : Tokenizer
  model : Model
  tgt_lang : String
  mt_dataloaders : List (String × List Batch)
  pred_save_dir : String
  n_step : Option Nat

def MTEvaluator.withStep (e : MTEvaluator) (n : Option Nat) : MTEvaluator :=
  ⟨e.tokenizer, e.model, e.tgt_lang, e.mt_dataloaders, e.pred_save_dir, n⟩

/-- `MTEvaluator.__init__`. -/
def MTEvaluator.init (tokenizer : Tokenizer) (model : Model) (pred_save_dir : String)
    (mt_dataloaders : List (String × List Batch)) : MTEvaluator :=
  ⟨tokenizer, model, mbart_lang_code_map_en, mt_dataloaders, pred_save_dir, none⟩

/-- The generation loop of `gen_translations_n_targets`: beam-search
generation per batch (no forced token, no bad words), decoding both the
generated ids and the gold labels, extending the two lists in order. -/
def mtGenLoop (tok : Tokenizer) (model : Model) (decStart : Nat) :
    List Batch → List String × List String
  | [] => ([], [])
  | b :: rest =>
    let gen := model.generate ⟨b.input_ids, b.attention_mask, decStart, none, none, 5⟩
    let mt_translations := tok.batch_decode gen
    let targets := tok.batch_decode b.labels
    let r := mtGenLoop tok model decStart rest
    (mt_translations ++ r.1, targets ++ r.2)

/-- `MTEvaluator.gen_translations_n_targets`: the generation loop followed
by persisting the predictions under a step- and language-pair-specific
path. -/
def MTEvaluator.gen_translations_n_targets (e : MTEvaluator) (w : World)
    (src_lang : String) (dataloader : List Batch) :
    (List String × List String) × World × List Eff :=
  let decStart := (e.tokenizer.convert_tokens_to_ids [e.tgt_lang]).headD 0
  let r := mtGenLoop e.tokenizer e.model decStart dataloader
  let save_to := e.pred_save_dir ++ "/step_" ++ nStepRepr e.n_step ++ "/" ++
    e.tgt_lang.take 2 ++ "-" ++ src_lang ++ "." ++ e.tgt_lang
  let s := save_predictions w r.1 save_to
  (r, s.2.1, s.2.2)

/-- Model of `torch.mean(torch.stack(l))`: the arithmetic mean; stacking an
empty list raises a runtime error. -/
def torchMeanStack (l : List ℚ) : Except PyErr ℚ :=
  if l.isEmpty then Except.error PyErr.runtimeError else Except.ok (l.sum / l.length)

/-- `MTEvaluator.get_bleu`, parameterized by the sentence-level BLEU metric
(the external `torchmetrics.BLEUScore`, called one sentence pair at a
time; its forward call returns the score of the pair just given): scores
each aligned (prediction, target) pair and returns the mean of the
per-sentence scores. -/
def MTEvaluator.get_bleu (bleu : String → String → ℚ) (preds targets : List String) :
    Except PyErr ℚ :=
  torchMeanStack ((preds.zip targets).map (fun pt => bleu pt.1 pt.2))

/-- `MTEvaluator.eval_translation`: generation followed by BLEU scoring. -/
def MTEvaluator.eval_translation (bleu : String → String → ℚ) (e : MTEvaluator)
    (w : World) (src_lang : String) (dataloader : List Batch) :
    Except PyErr ℚ × World × List Eff :=
  let r := e.gen_translations_n_targets w src_lang dataloader
  (MTEvaluator.get_bleu bleu r.1.1 r.1.2, r.2.1, r.2.2)

/-- The per-language loop of `MTEvaluator.run_eval`, collecting the scores
in dictionary order and logging each. -/
def mtRunLoop (bleu : String → String → ℚ) (e : MTEvaluator) :
    List (String × List Batch) → World → Except PyErr (List ℚ) × World × List Eff
  | [], w => (Except.ok [], w, [])
  | (src_lang, dl) :: rest, w =>
    let r := MTEvaluator.eval_translation bleu e w src_lang dl
    match r.1 with
    | Except.error err => (Except.error err, r.2.1, r.2.2)
    | Except.ok b =>
      let msg := "bleu score for " ++ src_lang ++ "->" ++ e.tgt_lang.take 2 ++
        ":" ++ ratRepr b ++ ":"
      let r2 := mtRunLoop bleu e rest r.2.1
      match r2.1 with
      | Except.error err => (Except.error err, r2.2.1, r.2.2 ++ [Eff.logInfo msg] ++ r2.2.2)
      | Except.ok bs => (Except.ok (b :: bs), r2.2.1, r.2.2 ++ [Eff.logInfo msg] ++ r2.2.2)

/-- `MTEvaluator.run_eval`: sets `n_step`, evaluates every source language
in order, and returns the sum of the per-language scores divided by their
number (a `ZeroDivisionError` when there are no dataloaders). -/
def MTEvaluator.run_eval (bleu : String → String → ℚ) (e : MTEvaluator) (w : World)
    (n_step : Option Nat) : Except PyErr ℚ × MTEvaluator × World × List Eff :=
  let e2 := e.withStep n_step
  let r := mtRunLoop bleu e2 e2.mt_dataloaders w
  match r.1 with
  | Except.error err => (Except.error err, e2, r.2.1, r.2.2)
  | Except.ok bs =>
    if bs.isEmpty then (Except.error PyErr.zeroDivisionError, e2, r.2.1, r.2.2)
    else (Except.ok (bs.sum / bs.length), e2, r.2.1, r.2.2)

/-- Definition following the words of the spec for `MTEvaluator.run_eval`
(used only as the refinement target of a comparison theorem): the
unweighted arithmetic mean over source languages of the per-language mean
of sentence-level BLEU scores over the aligned (prediction, target)
pairs. -/
def specMtMeanBleu (bleu : String → String → ℚ)
    (perLangPairs : List (List (String × String))) : ℚ :=
  npMean (perLangPairs.map (fun pairs => npMean (pairs.map (fun pr => bleu pr.1 pr.2))))

/-! ### Derived expressions used in theorem statements -/

/-- The decoded predictions one batch contributes in
`AmrEvaluator.gen_outputs`. -/
def amrDecodeOf (tok : Tokenizer) (model : Model) (badWords : Option (List (List Nat)))
    (b : Batch) : List String :=
  tok.batch_decode (model.generate
    ⟨b.input_ids, b.attention_mask, (tok.convert_tokens_to_ids ["amr"]).headD 0,
     some ((tok.convert_tokens_to_ids ["("]).headD 0), badWords, 5⟩)

/-- The decoded predictions one batch contributes in
`UccaEvaluator.gen_outputs`. -/
def uccaDecodeOf (tok : Tokenizer) (model : Model) (b : Batch) : List String :=
  tok.batch_decode (model.generate
    ⟨b.input_ids, b.attention_mask, (tok.convert_tokens_to_ids ["ucca"]).headD 0,
     some ((tok.convert_tokens_to_ids ["["]).headD 0), none, 5⟩)

/-- The argument vector of the (spec-modelled) AMR postprocessing
subprocess as invoked by `run_eval`. -/
def amrPostArgs (e2 : AmrEvaluator) : List String :=
  ["amr_postprocessing", amrPredSaveTo e2, e2.sent_path]

/-- The losses collected by `AmrEvaluator.gen_outputs` for a non-Chinese
source language. -/
def amrLossesOf (e2 : AmrEvaluator) : List ℚ :=
  (amrGenLoop e2.tokenizer e2.model ((e2.tokenizer.convert_tokens_to_ids ["amr"]).headD 0)
    none e2.dataloader).2

/-- The predictions collected by `AmrEvaluator.gen_outputs` for a
non-Chinese source language. -/
def amrPredsOf (e2 : AmrEvaluator) : List String :=
  (amrGenLoop e2.tokenizer e2.model ((e2.tokenizer.convert_tokens_to_ids ["amr"]).headD 0)
    none e2.dataloader).1

/-- The file system state at the moment `compute_smatch` checks the
reference file inside `run_eval` (after the prediction file was saved and
the postprocessing subprocess ran). -/
def amrSmatchFs (e : AmrEvaluator) (w : World) (n : Option Nat) : List (String × String) :=
  w.procFiles (amrPostArgs (e.withStep n)) ++
    (amrPredSaveTo (e.withStep n), linesJoin (amrPredsOf (e.withStep n))) :: w.fs

/-- The aligned (prediction, target) sentence pairs produced for one
source-language dataloader in `MTEvaluator`. -/
def mtPairsOf (e : MTEvaluator) (dl : List Batch) : List (String × String) :=
  let r := mtGenLoop e.tokenizer e.model ((e.tokenizer.convert_tokens_to_ids [e.tgt_lang]).headD 0) dl
  r.1.zip r.2

/-! ### Concrete fixtures for witnesses and counterexamples -/

/-- A stub tokenizer: every token maps to id 1, decoding renders the first
id of each sequence, tokenizing gives a fixed id per string. -/
def stubTok : Tokenizer :=
  ⟨fun _ => [1], fun gen => gen.map (fun ids => "t" ++ natRepr (ids.headD 0)),
   fun l => l.map (fun _ => [2])⟩

/-- A stub model: loss 1 on every batch, generation echoes the input ids
(one output row per input row). -/
def stubModel : Model := ⟨fun _ => 1, fun a => a.input_ids⟩

/-- A batch of two rows. -/
def batch2 : Batch := ⟨[[3], [4]], [[1], [1]], [[3], [4]]⟩

/-- A world in which every subprocess exits with code 1 and nothing else
is available. -/
def W0 : World :=
  ⟨[], fun _ => 1, fun _ => [], fun _ => "",
   fun _ => Except.error PyErr.valueError, fun _ => Except.error PyErr.valueError⟩

/-- As `W0` but with a gold reference file and a sentence file present. -/
def W1 : World :=
  ⟨[("gold.graph", "(g / gold)"), ("sents.txt", "a sentence")], fun _ => 1, fun _ => [],
   fun _ => "", fun _ => Except.error PyErr.valueError, fun _ => Except.error PyErr.valueError⟩

/-- The JSON report a successful mtool run produces in the fixtures. -/
def mtoolReport : JsonVal :=
  JsonVal.objV (JsonObj.cons "labeled"
    (JsonVal.objV (JsonObj.cons "primary"
      (JsonVal.objV (JsonObj.cons "f" (JsonVal.floatV 743 3) JsonObj.nil))
      JsonObj.nil))
    JsonObj.nil)

/-- A world in which every subprocess succeeds: the smatch run writes its
score file, mtool prints a JSON report, and the float parser accepts
everything. -/
def W2 : World :=
  ⟨[("gold.graph", "(g / gold)"), ("sents.txt", "a sentence")], fun _ => 0,
   fun _ => [("amr_utils/smatch/f_score.txt", "0.743")], fun _ => "report",
   fun s => if s = "report" then Except.ok mtoolReport else Except.error PyErr.valueError,
   fun _ => Except.ok (743 / 1000)⟩

/-- A concrete `AmrEvaluator` over the stubs, with an empty dataloader. -/
def E1 : AmrEvaluator :=
  ⟨stubTok, stubModel, [], "gold.graph", "sents.txt", "preds", "en", none⟩

/-- A concrete `AmrEvaluator` over the stubs with two two-row batches. -/
def E2 : AmrEvaluator :=
  ⟨stubTok, stubModel, [batch2, batch2], "gold.graph", "sents.txt", "preds", "en", none⟩

/-- A stub UCCA parser: parses the toy graph and one designated good
graph, fails on everything else. -/
def parseStub : String → Option String :=
  fun s => if s = toyGraphLit then some "TOY"
           else if s = "(good)" then some "GOOD" else none

/-- A stub MRP converter pairing the tree, the sentence and the index into
a JSON record. -/
def convStub : String → String → Nat → JsonVal :=
  fun t s i =>
    JsonVal.objV (JsonObj.cons "tree" (JsonVal.strV t)
      (JsonObj.cons "sent" (JsonVal.strV s)
        (JsonObj.cons "id" (JsonVal.intV (Int.ofNat i)) JsonObj.nil)))

/-- A concrete `UccaEvaluator` as built by `__init__` over the stubs: one
gold graph line and one sentence line. -/
def U0 : UccaEvaluator :=
  ⟨stubTok, stubModel, [], "en", "Eval", "dev",
   "Eval/dev.gold.mrp", "Eval/dev.pred.mrp",
   toyGraphLit, "Highly recommended",
   ["(good)"], ["the original sentence"], none⟩

/-- A concrete `MTEvaluator` over the stubs with one source language and
one batch. -/
def M1 : MTEvaluator :=
  ⟨stubTok, stubModel, "en_XX", [("fr", [batch2])], "preds", none⟩

/-- A stub sentence-level BLEU metric: 1 when prediction and target agree,
0 otherwise. -/
def bleuStub : String → String → ℚ :=
  fun p t => if p = t then 1 else 0

/-- The value of the environment variable observed by each subprocess
call in a trace, given the value the variable had before the trace. -/
def envAtProcCalls (name v : String) : List Eff → List String
  | [] => []
  | Eff.procCall _ :: rest => v :: envAtProcCalls name v rest
  | Eff.setEnvVar nm x :: rest => envAtProcCalls name (if nm = name then x else v) rest
  | _ :: rest => envAtProcCalls name v rest

/-- The file system at the moment `compute_smatch` reads the score file
inside `run_eval` (after the smatch subprocess wrote its outputs). -/
def amrScoreFs (e : AmrEvaluator) (w : World) (n : Option Nat) : List (String × String) :=
  w.procFiles (smatchArgs (amrPredSaveTo (e.withStep n)) e.eval_gold_file) ++ amrSmatchFs e w n

/-- A concrete `UccaEvaluator` over the stubs with two two-row batches. -/
def U1 : UccaEvaluator :=
  ⟨stubTok, stubModel, [batch2, batch2], "en", "Eval", "dev",
   "Eval/dev.gold.mrp", "Eval/dev.pred.mrp",
   toyGraphLit, "Highly recommended",
   ["(good)"], ["the original sentence"], none⟩

/-- The evaluator object `UccaEvaluator.__init__` builds over the stubs
and the fixture world `W1`. -/
def U2 : UccaEvaluator :=
  ⟨stubTok, stubModel, [], "en", "Eval", "dev", "Eval/dev.gold.mrp", "Eval/dev.pred.mrp",
   toyGraphLit, "Highly recommended", ["(g / gold)"], ["a sentence"], none⟩

/-! ### Theorems -/

/-! ### Newline-freeness of JSON serializations -/

theorem mem_data_append (c : Char) (a b : String) :
    c ∈ (a ++ b).data ↔ c ∈ a.data ∨ c ∈ b.data := by
  rw [String.data_append]
  exact List.mem_append

theorem char48_ne_nl : ∀ m, m < 10 → Char.ofNat (48 + m) ≠ '\n' := by decide

theorem digitChar10_ne_nl (n : Nat) : digitChar10 n ≠ '\n' :=
  char48_ne_nl (n % 10) (Nat.mod_lt _ (by decide))

theorem nl_not_mem_natDigitsRev (fuel : Nat) : ∀ n, '\n' ∉ natDigitsRev fuel n := by
  induction fuel with
  | zero => intro n; simp [natDigitsRev]
  | succ fuel ih =>
    intro n
    unfold natDigitsRev
    by_cases h : n = 0
    · simp [h]
    · simp only [h, if_false, List.mem_cons, not_or]
      exact ⟨fun hc => digitChar10_ne_nl (n % 10) hc.symm, ih (n / 10)⟩

theorem nl_not_mem_natRepr (n : Nat) : '\n' ∉ (natRepr n).data := by
  unfold natRepr
  by_cases h : n = 0
  · simp only [h, if_true]
    decide
  · simp only [h, if_false]
    intro hc
    exact nl_not_mem_natDigitsRev n n (List.mem_reverse.mp hc)

theorem nl_not_mem_intRepr (n : Int) : '\n' ∉ (intRepr n).data := by
  cases n with
  | ofNat m => exact nl_not_mem_natRepr m
  | negSucc m =>
    unfold intRepr
    rw [mem_data_append]
    rintro (h | h)
    · revert h; decide
    · exact nl_not_mem_natRepr (m + 1) h

theorem hexDigit_ne_nl : ∀ m, m < 16 → hexDigit m ≠ '\n' := by decide

theorem nl_not_mem_hex4 (n : Nat) : '\n' ∉ (hex4 n).data := by
  intro hc
  have hc2 : '\n' ∈ [hexDigit (n / 4096 % 16), hexDigit (n / 256 % 16),
      hexDigit (n / 16 % 16), hexDigit (n % 16)] := hc
  simp only [List.mem_cons, List.not_mem_nil, or_false] at hc2
  rcases hc2 with hc2 | hc2 | hc2 | hc2
  all_goals exact hexDigit_ne_nl _ (Nat.mod_lt _ (by decide)) hc2.symm

theorem nl_not_mem_escChar (c : Char) : '\n' ∉ (escChar c).data := by
  unfold escChar
  split_ifs with h1 h2 h3 h4 h5 h6 h7 h8 h9
  · decide
  · decide
  · decide
  · decide
  · decide
  · decide
  · decide
  · rw [mem_data_append]
    rintro (h | h)
    · revert h; decide
    · exact nl_not_mem_hex4 _ h
  · rw [mem_data_append, mem_data_append, mem_data_append]
    rintro (((h | h) | h) | h)
    · revert h; decide
    · exact nl_not_mem_hex4 _ h
    · revert h; decide
    · exact nl_not_mem_hex4 _ h
  · intro hc
    have hc2 : '\n' ∈ [c] := hc
    simp only [List.mem_singleton] at hc2
    exact h3 hc2.symm

theorem nl_not_mem_escapeChars (cs : List Char) : '\n' ∉ (escapeChars cs).data := by
  induction cs with
  | nil => simp [escapeChars]
  | cons c cs ih =>
    unfold escapeChars
    rw [mem_data_append]
    rintro (h | h)
    · exact nl_not_mem_escChar c h
    · exact ih h

theorem nl_not_mem_jsonEscape (s : String) : '\n' ∉ (jsonEscape s).data :=
  nl_not_mem_escapeChars s.data

theorem nlFree_append {a b : String} (ha : '\n' ∉ a.data) (hb : '\n' ∉ b.data) :
    '\n' ∉ (a ++ b).data := by
  rw [mem_data_append]
  rintro (h | h)
  · exact ha h
  · exact hb h

mutual
theorem nlFree_jsonSerialize : ∀ j : JsonVal, '\n' ∉ (jsonSerialize j).data
  | JsonVal.null => by decide
  | JsonVal.boolV true => by decide
  | JsonVal.boolV false => by decide
  | JsonVal.intV n => nl_not_mem_intRepr n
  | JsonVal.floatV m e =>
      nlFree_append (nlFree_append (nl_not_mem_intRepr m) (by decide)) (nl_not_mem_natRepr e)
  | JsonVal.strV s =>
      nlFree_append (nlFree_append (by decide) (nl_not_mem_jsonEscape s)) (by decide)
  | JsonVal.arrV a =>
      nlFree_append (nlFree_append (by decide) (nlFree_serializeArr a)) (by decide)
  | JsonVal.objV o =>
      nlFree_append (nlFree_append (by decide) (nlFree_serializeObj o)) (by decide)
theorem nlFree_serializeArr : ∀ a : JsonArr, '\n' ∉ (serializeArr a).data
  | JsonArr.nil => by decide
  | JsonArr.cons v JsonArr.nil => nlFree_jsonSerialize v
  | JsonArr.cons v (JsonArr.cons w rest) =>
      nlFree_append (nlFree_append (nlFree_jsonSerialize v) (by decide))
        (nlFree_serializeArr (JsonArr.cons w rest))
theorem nlFree_serializeObj : ∀ o : JsonObj, '\n' ∉ (serializeObj o).data
  | JsonObj.nil => by decide
  | JsonObj.cons k v JsonObj.nil =>
      nlFree_append (nlFree_append (nlFree_append (by decide) (nl_not_mem_jsonEscape k))
        (by decide)) (nlFree_jsonSerialize v)
  | JsonObj.cons k v (JsonObj.cons k2 v2 rest) =>
      nlFree_append (nlFree_append (nlFree_append (nlFree_append (nlFree_append (by decide)
        (nl_not_mem_jsonEscape k)) (by decide)) (nlFree_jsonSerialize v)) (by decide))
        (nlFree_serializeObj (JsonObj.cons k2 v2 rest))
end

/-! ### Splitting newline-terminated records back into lines -/

theorem splitChar_append_cons (c : Char) (t : List Char) :
    ∀ s : List Char, c ∉ s → splitChar c (s ++ c :: t) = s :: splitChar c t := by
  intro s
  induction s with
  | nil => intro _; simp [splitChar]
  | cons x xs ih =>
    intro hs
    have hx : ¬x = c := fun h => hs (h ▸ List.mem_cons_self x xs)
    have hxs : c ∉ xs := fun h => hs (List.mem_cons_of_mem _ h)
    simp only [List.cons_append, splitChar, List.append_eq, if_neg hx, ih hxs]

theorem splitNl_linesJoin : ∀ lines : List String, (∀ s ∈ lines, '\n' ∉ s.data) →
    splitNl (linesJoin lines).data = (lines.map String.data) ++ [[]] := by
  intro lines
  induction lines with
  | nil => intro _; rfl
  | cons s rest ih =>
    intro h
    have hs : '\n' ∉ s.data := h s (List.mem_cons_self s rest)
    have hrest := ih (fun x hx => h x (List.mem_cons_of_mem _ hx))
    show splitNl (s ++ "\n" ++ linesJoin rest).data = _
    rw [String.data_append, String.data_append]
    have hnl : ("\n" : String).data = ['\n'] := rfl
    rw [hnl, List.append_assoc, List.singleton_append]
    unfold splitNl
    rw [splitChar_append_cons '\n' (linesJoin rest).data s.data hs]
    show _ :: splitNl (linesJoin rest).data = _
    rw [hrest]
    rfl

theorem fileLines_linesJoin (lines : List String) (h : ∀ s ∈ lines, '\n' ∉ s.data) :
    fileLines (linesJoin lines) = lines := by
  unfold fileLines
  rw [splitNl_linesJoin lines h, List.dropLast_concat, List.map_map]
  have : (fun l => String.mk l) ∘ String.data = id := by
    funext s
    rfl
  rw [this, List.map_id]

/-! ### Reduction lemmas for the world operations -/

theorem checkCall_eq (w : World) (args : List String) :
    checkCall w args =
      (if w.procExit args = 0 then Except.ok ()
       else Except.error (PyErr.calledProcessError args (w.procExit args)),
       w.withFs (w.procFiles args ++ w.fs), [Eff.procCall args]) := rfl

theorem checkOutput_eq (w : World) (args : List String) :
    checkOutput w args =
      (if w.procExit args = 0 then Except.ok (w.procOut args)
       else Except.error (PyErr.calledProcessError args (w.procExit args)),
       w.withFs (w.procFiles args ++ w.fs), [Eff.procCall args]) := rfl

/-- C3: `compute_smatch` fails fast, via the explicit assertion, when the
reference file does not exist — no subprocess is invoked and the world is
untouched; when the reference file exists the smatch subprocess is
invoked, and a non-zero exit is signaled to the caller as a
`CalledProcessError`. -/
theorem claim_C3 (w : World) (pred_path ref_path : String) :
    (fsLookup w.fs ref_path = none →
      AmrEvaluator.compute_smatch w pred_path ref_path =
        (Except.error PyErr.assertionError, w, [])) ∧
    ((fsLookup w.fs ref_path).isSome →
      Eff.procCall (smatchArgs pred_path ref_path) ∈
        (AmrEvaluator.compute_smatch w pred_path ref_path).2.2 ∧
      (w.procExit (smatchArgs pred_path ref_path) ≠ 0 →
        (AmrEvaluator.compute_smatch w pred_path ref_path).1 =
          Except.error (PyErr.calledProcessError (smatchArgs pred_path ref_path)
            (w.procExit (smatchArgs pred_path ref_path))))) := by
  constructor
  · intro h
    simp [AmrEvaluator.compute_smatch, h]
  · intro h
    unfold AmrEvaluator.compute_smatch
    rw [if_pos h, checkCall_eq]
    by_cases hz : w.procExit (smatchArgs pred_path ref_path) = 0
    · rw [if_pos hz]
      constructor
      · cases hfr : fsRead (w.withFs (w.procFiles (smatchArgs pred_path ref_path) ++ w.fs))
            (AMR_SCRIPT ++ "/smatch/f_score.txt") with
        | error err => simp [hfr]
        | ok content =>
          cases hpf : (w.withFs (w.procFiles (smatchArgs pred_path ref_path) ++
              w.fs)).pyFloat content.trim with
          | error err => simp [hfr, hpf]
          | ok q => simp [hfr, hpf]
      · intro hne
        exact absurd hz hne
    · rw [if_neg hz]
      exact ⟨List.mem_singleton.mpr rfl, fun _ => rfl⟩

theorem claim_C3_witness :
    (AmrEvaluator.compute_smatch W0 "preds/pred.txt.tf" "gold.graph" =
      (Except.error PyErr.assertionError, W0, [])) ∧
    (Eff.procCall (smatchArgs "preds/pred.txt.tf" "gold.graph") ∈
      (AmrEvaluator.compute_smatch W1 "preds/pred.txt.tf" "gold.graph").2.2) ∧
    ((AmrEvaluator.compute_smatch W1 "preds/pred.txt.tf" "gold.graph").1 =
      Except.error (PyErr.calledProcessError (smatchArgs "preds/pred.txt.tf" "gold.graph") 1)) := by
  refine ⟨(claim_C3 W0 "preds/pred.txt.tf" "gold.graph").1 (by decide), ?_, ?_⟩
  · exact ((claim_C3 W1 "preds/pred.txt.tf" "gold.graph").2 (by decide)).1
  · exact ((claim_C3 W1 "preds/pred.txt.tf" "gold.graph").2 (by decide)).2 (by decide)

theorem amr_gen_outputs_not_zh (e : AmrEvaluator) (w : World) (h : ¬e.src_lang = "zh") :
    e.gen_outputs w = (Except.ok (amrGenLoop e.tokenizer e.model
      ((e.tokenizer.convert_tokens_to_ids ["amr"]).headD 0) none e.dataloader), []) := by
  unfold AmrEvaluator.gen_outputs
  rw [if_neg h]

/-- C1: when the AMR postprocessing subprocess, or (the reference file
being present) the smatch subprocess, exits non-zero, `run_eval` catches
the resulting `CalledProcessError`, logs it, and returns the mean eval
loss paired with a zero score instead of propagating the exception. -/
theorem claim_C1 (e : AmrEvaluator) (w : World) (n : Option Nat)
    (hzh : ¬e.src_lang = "zh")
    (hfail :
      w.procExit (amrPostArgs (e.withStep n)) ≠ 0 ∨
      (w.procExit (amrPostArgs (e.withStep n)) = 0 ∧
       (fsLookup (amrSmatchFs e w n) e.eval_gold_file).isSome ∧
       w.procExit (smatchArgs (amrPredSaveTo (e.withStep n)) e.eval_gold_file) ≠ 0)) :
    (e.run_eval w n).1 = Except.ok (npMean (amrLossesOf (e.withStep n)), 0) ∧
    ∃ args code, code ≠ 0 ∧
      Eff.logInfo (errString (PyErr.calledProcessError args code)) ∈ (e.run_eval w n).2.2.2 := by
  rcases hfail with hpost | ⟨h0, href, hcode⟩
  · simp only [amrPostArgs] at hpost
    simp only [AmrEvaluator.run_eval, amr_gen_outputs_not_zh (e.withStep n) w hzh,
      save_predictions, amr_postprocessing, checkCall_eq, fsWrite, World.withFs,
      if_neg hpost, amrLossesOf]
    refine ⟨trivial, ["amr_postprocessing", amrPredSaveTo (e.withStep n), (e.withStep n).sent_path],
      w.procExit ["amr_postprocessing", amrPredSaveTo (e.withStep n), (e.withStep n).sent_path],
      hpost, ?_⟩
    simp
  · simp only [amrPostArgs] at h0
    simp only [amrSmatchFs, amrPredsOf, amrPostArgs] at href
    simp only [AmrEvaluator.run_eval, amr_gen_outputs_not_zh (e.withStep n) w hzh,
      save_predictions, amr_postprocessing, checkCall_eq, fsWrite, World.withFs,
      if_pos h0, AmrEvaluator.compute_smatch,
      show (e.withStep n).eval_gold_file = e.eval_gold_file from rfl,
      if_pos href, if_neg hcode, amrLossesOf]
    refine ⟨trivial, smatchArgs (amrPredSaveTo (e.withStep n)) e.eval_gold_file,
      w.procExit (smatchArgs (amrPredSaveTo (e.withStep n)) e.eval_gold_file),
      hcode, ?_⟩
    simp

/-- C6 counterexample: with every subprocess exiting non-zero, an AMR
evaluation run and a UCCA scoring call both leave the
tokenizers-parallelism flag at false: the flag is not restored to true
when the scoring call fails, contrary to the claim. -/
theorem claim_C6_counterexample :
    envValueAfter "TOKENIZERS_PARALLELISM" "true"
      (AmrEvaluator.run_eval E1 W1 (some 1)).2.2.2 = "false" ∧
    envValueAfter "TOKENIZERS_PARALLELISM" "true"
      (UccaEvaluator.compute_ucca W1 "g.mrp" "p.mrp").2.2 = "false" ∧
    ("false" : String) ≠ "true" := by
  refine ⟨by decide, by decide, by decide⟩

/-- C6 (amended): for both scoring paths (the smatch scoring inside
`AmrEvaluator.run_eval` and the mtool scoring in
`UccaEvaluator.compute_ucca`) the tokenizers-parallelism flag is set to
false before the subprocess calls, so every scoring subprocess observes
the value false; it is restored to true only after a fully successful
scoring call, and when the scoring call fails the flag is left at false. -/
theorem claim_C6_amended (e : AmrEvaluator) (w : World) (n : Option Nat) (v : String)
    (hzh : ¬e.src_lang = "zh") (wu : World) (gold_file pred_file : String)
    (content : String) (q : ℚ) :
    ((w.procExit (amrPostArgs (e.withStep n)) ≠ 0 ∨
      (w.procExit (amrPostArgs (e.withStep n)) = 0 ∧
       (fsLookup (amrSmatchFs e w n) e.eval_gold_file).isSome ∧
       w.procExit (smatchArgs (amrPredSaveTo (e.withStep n)) e.eval_gold_file) ≠ 0)) →
      envValueAfter "TOKENIZERS_PARALLELISM" v (e.run_eval w n).2.2.2 = "false" ∧
      ∀ x ∈ envAtProcCalls "TOKENIZERS_PARALLELISM" v (e.run_eval w n).2.2.2, x = "false") ∧
    (w.procExit (amrPostArgs (e.withStep n)) = 0 →
      (fsLookup (amrSmatchFs e w n) e.eval_gold_file).isSome →
      w.procExit (smatchArgs (amrPredSaveTo (e.withStep n)) e.eval_gold_file) = 0 →
      fsLookup (amrScoreFs e w n) (AMR_SCRIPT ++ "/smatch/f_score.txt") = some content →
      w.pyFloat content.trim = Except.ok q →
      envValueAfter "TOKENIZERS_PARALLELISM" v (e.run_eval w n).2.2.2 = "true" ∧
      ∀ x ∈ envAtProcCalls "TOKENIZERS_PARALLELISM" v (e.run_eval w n).2.2.2, x = "false") ∧
    (∀ x ∈ envAtProcCalls "TOKENIZERS_PARALLELISM" v
        (UccaEvaluator.compute_ucca wu gold_file pred_file).2.2, x = "false") ∧
    (∀ r, (UccaEvaluator.compute_ucca wu gold_file pred_file).1 = Except.ok r →
      envValueAfter "TOKENIZERS_PARALLELISM" v
        (UccaEvaluator.compute_ucca wu gold_file pred_file).2.2 = "true") ∧
    (wu.procExit (mtoolArgs gold_file pred_file) ≠ 0 →
      envValueAfter "TOKENIZERS_PARALLELISM" v
        (UccaEvaluator.compute_ucca wu gold_file pred_file).2.2 = "false") := by
  refine ⟨?_, ?_, ?_, ?_, ?_⟩
  · rintro (hpost | ⟨h0, href, hcode⟩)
    · simp only [amrPostArgs] at hpost
      simp only [AmrEvaluator.run_eval, amr_gen_outputs_not_zh (e.withStep n) w hzh,
        save_predictions, amr_postprocessing, checkCall_eq, fsWrite, World.withFs,
        if_neg hpost]
      simp [envValueAfter, envAtProcCalls]
    · simp only [amrPostArgs] at h0
      simp only [amrSmatchFs, amrPredsOf, amrPostArgs] at href
      simp only [AmrEvaluator.run_eval, amr_gen_outputs_not_zh (e.withStep n) w hzh,
        save_predictions, amr_postprocessing, checkCall_eq, fsWrite, World.withFs,
        if_pos h0, AmrEvaluator.compute_smatch,
        show (e.withStep n).eval_gold_file = e.eval_gold_file from rfl,
        if_pos href, if_neg hcode]
      simp [envValueAfter, envAtProcCalls]
  · intro h0 href hcode hscore hfloat
    simp only [amrPostArgs] at h0
    simp only [amrSmatchFs, amrPredsOf, amrPostArgs] at href
    simp only [amrScoreFs, amrSmatchFs, amrPredsOf, amrPostArgs] at hscore
    simp only [AmrEvaluator.run_eval, amr_gen_outputs_not_zh (e.withStep n) w hzh,
      save_predictions, amr_postprocessing, checkCall_eq, fsWrite, World.withFs,
      if_pos h0, AmrEvaluator.compute_smatch,
      show (e.withStep n).eval_gold_file = e.eval_gold_file from rfl,
      if_pos href, if_pos hcode, fsRead, hscore, hfloat]
    simp [envValueAfter, envAtProcCalls]
  · unfold UccaEvaluator.compute_ucca
    rw [checkOutput_eq]
    by_cases hz : wu.procExit (mtoolArgs gold_file pred_file) = 0
    · rw [if_pos hz]
      cases hjl : (wu.withFs (wu.procFiles (mtoolArgs gold_file pred_file) ++ wu.fs)).jsonLoads
          (wu.procOut (mtoolArgs gold_file pred_file)) with
      | error err => simp [hjl, envAtProcCalls]
      | ok report =>
        cases hl1 : jsonSubscript report "labeled" with
        | error err => simp [hjl, hl1, envAtProcCalls]
        | ok labeled =>
          cases hl2 : jsonSubscript labeled "primary" with
          | error err => simp [hjl, hl1, hl2, envAtProcCalls]
          | ok primary =>
            cases hl3 : jsonSubscript primary "f" with
            | error err => simp [hjl, hl1, hl2, hl3, envAtProcCalls]
            | ok fval =>
              cases hl4 : jsonToRat fval with
              | error err => simp [hjl, hl1, hl2, hl3, hl4, envAtProcCalls]
              | ok ucca_f1 => simp [hjl, hl1, hl2, hl3, hl4, envAtProcCalls]
    · rw [if_neg hz]
      simp [envAtProcCalls]
  · unfold UccaEvaluator.compute_ucca
    rw [checkOutput_eq]
    by_cases hz : wu.procExit (mtoolArgs gold_file pred_file) = 0
    · rw [if_pos hz]
      cases hjl : (wu.withFs (wu.procFiles (mtoolArgs gold_file pred_file) ++ wu.fs)).jsonLoads
          (wu.procOut (mtoolArgs gold_file pred_file)) with
      | error err => simp [hjl]
      | ok report =>
        cases hl1 : jsonSubscript report "labeled" with
        | error err => simp [hjl, hl1]
        | ok labeled =>
          cases hl2 : jsonSubscript labeled "primary" with
          | error err => simp [hjl, hl1, hl2]
          | ok primary =>
            cases hl3 : jsonSubscript primary "f" with
            | error err => simp [hjl, hl1, hl2, hl3]
            | ok fval =>
              cases hl4 : jsonToRat fval with
              | error err => simp [hjl, hl1, hl2, hl3, hl4]
              | ok ucca_f1 => simp [hjl, hl1, hl2, hl3, hl4, envValueAfter]
    · rw [if_neg hz]
      simp
  · intro hz
    unfold UccaEvaluator.compute_ucca
    rw [checkOutput_eq, if_neg hz]
    simp [envValueAfter]

theorem claim_C6_amended_witness :
    envValueAfter "TOKENIZERS_PARALLELISM" "true"
      (AmrEvaluator.run_eval E1 W1 (some 1)).2.2.2 = "false" ∧
    envValueAfter "TOKENIZERS_PARALLELISM" "true"
      (AmrEvaluator.run_eval E1 W2 (some 1)).2.2.2 = "true" ∧
    (∀ x ∈ envAtProcCalls "TOKENIZERS_PARALLELISM" "true"
        (AmrEvaluator.run_eval E1 W2 (some 1)).2.2.2, x = "false") ∧
    envValueAfter "TOKENIZERS_PARALLELISM" "true"
      (UccaEvaluator.compute_ucca W2 "g.mrp" "p.mrp").2.2 = "true" ∧
    envValueAfter "TOKENIZERS_PARALLELISM" "true"
      (UccaEvaluator.compute_ucca W1 "g.mrp" "p.mrp").2.2 = "false" := by
  refine ⟨?_, ?_, ?_, ?_, ?_⟩
  · exact ((claim_C6_amended E1 W1 (some 1) "true" (by decide) W1 "g" "p" "" 0).1
      (Or.inl (by decide))).1
  · exact ((claim_C6_amended E1 W2 (some 1) "true" (by decide) W2 "g.mrp" "p.mrp"
      "0.743" (743 / 1000)).2.1 (by decide) (by decide) (by decide) (by decide) rfl).1
  · exact ((claim_C6_amended E1 W2 (some 1) "true" (by decide) W2 "g.mrp" "p.mrp"
      "0.743" (743 / 1000)).2.1 (by decide) (by decide) (by decide) (by decide) rfl).2
  · exact (claim_C6_amended E1 W2 (some 1) "true" (by decide) W2 "g.mrp" "p.mrp"
      "0.743" (743 / 1000)).2.2.2.1 (pyRound3 (((743 : Int) : ℚ) / (10 : ℚ) ^ (3 : Nat))) rfl
  · exact (claim_C6_amended E1 W1 (some 1) "true" (by decide) W1 "g.mrp" "p.mrp"
      "" 0).2.2.2.2 (by decide)

theorem claim_C1_witness :
    (AmrEvaluator.run_eval E1 W1 (some 7)).1 = Except.ok (0, 0) ∧
    ∃ args code, code ≠ 0 ∧
      Eff.logInfo (errString (PyErr.calledProcessError args code)) ∈
        (AmrEvaluator.run_eval E1 W1 (some 7)).2.2.2 := by
  have h := claim_C1 E1 W1 (some 7) (by decide) (Or.inl (by decide))
  refine ⟨h.1.trans ?_, h.2⟩
  have hl : amrLossesOf (E1.withStep (some 7)) = [] := rfl
  rw [hl]
  simp [npMean]

theorem amrGenLoop_eq (tok : Tokenizer) (model : Model) (badWords : Option (List (List Nat))) :
    ∀ dl : List Batch,
      amrGenLoop tok model ((tok.convert_tokens_to_ids ["amr"]).headD 0) badWords dl =
        ((dl.map (amrDecodeOf tok model badWords)).flatten, dl.map model.forward) := by
  intro dl
  induction dl with
  | nil => rfl
  | cons b rest ih =>
    simp only [amrGenLoop]
    rw [ih]
    simp [amrDecodeOf]

theorem uccaGenLoop_eq (tok : Tokenizer) (model : Model) :
    ∀ dl : List Batch,
      uccaGenLoop tok model ((tok.convert_tokens_to_ids ["ucca"]).headD 0) dl =
        ((dl.map (uccaDecodeOf tok model)).flatten, dl.map model.forward) := by
  intro dl
  induction dl with
  | nil => rfl
  | cons b rest ih =>
    simp only [uccaGenLoop]
    rw [ih]
    simp [uccaDecodeOf]

theorem join_length_const {α β : Type} (f : α → List β) (B : Nat) :
    ∀ l : List α, (∀ b ∈ l, (f b).length = B) → ((l.map f).flatten).length = l.length * B := by
  intro l
  induction l with
  | nil => simp
  | cons x xs ih =>
    intro h
    simp [h x (List.mem_cons_self x xs),
      ih (fun b hb => h b (List.mem_cons_of_mem _ hb)), Nat.succ_mul, Nat.add_comm]

/-- C4: for a dataloader of N batches on which generation and decoding
yield B strings per batch, `gen_outputs` of both evaluators returns
exactly N times B decoded predictions, which are precisely the per-batch
decoded outputs flattened in generation order, and exactly N loss scalars,
which are the per-batch losses in batch order. -/
theorem claim_C4 (ea : AmrEvaluator) (eu : UccaEvaluator) (wa wu : World) (B : Nat)
    (hzh : ¬ea.src_lang = "zh")
    (hBa : ∀ b ∈ ea.dataloader, (amrDecodeOf ea.tokenizer ea.model none b).length = B)
    (hBu : ∀ b ∈ eu.dataloader, (uccaDecodeOf eu.tokenizer eu.model b).length = B) :
    ((ea.gen_outputs wa).1 = Except.ok
        ((ea.dataloader.map (amrDecodeOf ea.tokenizer ea.model none)).flatten,
         ea.dataloader.map ea.model.forward) ∧
     (ea.dataloader.map (amrDecodeOf ea.tokenizer ea.model none)).flatten.length =
        ea.dataloader.length * B ∧
     (ea.dataloader.map ea.model.forward).length = ea.dataloader.length) ∧
    ((eu.gen_outputs wu).1.1 = (eu.dataloader.map (uccaDecodeOf eu.tokenizer eu.model)).flatten ∧
     (eu.gen_outputs wu).1.2 = eu.dataloader.map eu.model.forward ∧
     (eu.gen_outputs wu).1.1.length = eu.dataloader.length * B ∧
     (eu.gen_outputs wu).1.2.length = eu.dataloader.length) := by
  have ha := amrGenLoop_eq ea.tokenizer ea.model none ea.dataloader
  have hu := uccaGenLoop_eq eu.tokenizer eu.model eu.dataloader
  constructor
  · refine ⟨?_, join_length_const _ B ea.dataloader hBa, by simp⟩
    rw [amr_gen_outputs_not_zh ea wa hzh, ha]
  · have h1 : (eu.gen_outputs wu).1 = uccaGenLoop eu.tokenizer eu.model
        ((eu.tokenizer.convert_tokens_to_ids ["ucca"]).headD 0) eu.dataloader := rfl
    rw [h1, hu]
    exact ⟨rfl, rfl, join_length_const _ B eu.dataloader hBu, by simp⟩

theorem claim_C4_witness :
    ((E2.gen_outputs W0).1 = Except.ok
        ((E2.dataloader.map (amrDecodeOf E2.tokenizer E2.model none)).flatten,
         E2.dataloader.map E2.model.forward) ∧
     (E2.dataloader.map (amrDecodeOf E2.tokenizer E2.model none)).flatten.length = 2 * 2 ∧
     (E2.dataloader.map E2.model.forward).length = 2) ∧
    ((U1.gen_outputs W0).1.1.length = 2 * 2 ∧ (U1.gen_outputs W0).1.2.length = 2) := by
  have h := claim_C4 E2 U1 W0 W0 2 (by decide)
    (by intro b hb; fin_cases hb <;> rfl) (by intro b hb; fin_cases hb <;> rfl)
  exact ⟨⟨h.1.1, h.1.2.1, h.1.2.2⟩, ⟨h.2.2.2.1, h.2.2.2.2⟩⟩

theorem delinLoop_ok {T : Type} (p : String → Option T) (toy : String)
    (htoy : (p toy).isSome) :
    ∀ l : List (String × String), ∃ ts, delinLoop p toy l = Except.ok ts ∧
      ts.length = l.length := by
  intro l
  induction l with
  | nil => exact ⟨[], rfl, rfl⟩
  | cons gs rest ih =>
    obtain ⟨ts, hts, hlen⟩ := ih
    obtain ⟨g, s⟩ := gs
    cases hp : p g with
    | some t =>
      refine ⟨t :: ts, ?_, by simp [hlen]⟩
      simp [delinLoop, hp, hts]
    | none =>
      cases hp2 : p toy with
      | none => rw [hp2] at htoy; simp at htoy
      | some t =>
        refine ⟨t :: ts, ?_, by simp [hlen]⟩
        simp [delinLoop, hp, hp2, hts]

theorem delinLoop_zip_sents {T : Type} (p : String → Option T) (toy : String) :
    ∀ (graphs sents sents2 : List String), sents.length = sents2.length →
      delinLoop p toy (graphs.zip sents) = delinLoop p toy (graphs.zip sents2) := by
  intro graphs
  induction graphs with
  | nil => intro sents sents2 _; rfl
  | cons g gs ih =>
    intro sents sents2 h
    cases sents with
    | nil =>
      cases sents2 with
      | nil => rfl
      | cons a b => exact absurd h (by simp)
    | cons s ss =>
      cases sents2 with
      | nil => exact absurd h (by simp)
      | cons s2 ss2 =>
        have h2 : ss.length = ss2.length := by simpa using h
        have h3 := ih ss ss2 h2
        simp only [List.zip] at h3
        simp only [List.zip_cons_cons, delinLoop]
        rw [h3]

/-- C9: `delinearize_to_tree` returns exactly min(len graphs, len sents)
trees — when the lists differ in length the excess items are silently
dropped by the zip — and the content of the sentences never influences
the result; only their count does. (The existence of a result list needs
the toy graph to be parseable, which holds for the real parser.) -/
theorem claim_C9 {T : Type} (parse_ucca : String → Option T) (e : UccaEvaluator)
    (graphs sents sents2 : List String) :
    ((parse_ucca e.toy_graph).isSome →
      ∃ trees, e.delinearize_to_tree parse_ucca graphs sents = Except.ok trees ∧
        trees.length = min graphs.length sents.length) ∧
    (sents.length = sents2.length →
      e.delinearize_to_tree parse_ucca graphs sents =
        e.delinearize_to_tree parse_ucca graphs sents2) := by
  constructor
  · intro htoy
    obtain ⟨ts, hts, hlen⟩ := delinLoop_ok parse_ucca e.toy_graph htoy (graphs.zip sents)
    exact ⟨ts, hts, by rw [hlen, List.length_zip]⟩
  · exact delinLoop_zip_sents parse_ucca e.toy_graph graphs sents sents2

theorem claim_C9_witness :
    (∃ trees, U0.delinearize_to_tree parseStub ["(good)", "<bad>", "(good)"] ["s1", "s2"] =
        Except.ok trees ∧ trees.length = min 3 2) ∧
    U0.delinearize_to_tree parseStub ["(good)", "<bad>"] ["a", "b"] =
      U0.delinearize_to_tree parseStub ["(good)", "<bad>"] ["x", "y"] := by
  constructor
  · exact (claim_C9 parseStub U0 ["(good)", "<bad>", "(good)"] ["s1", "s2"] []).1 (by decide)
  · exact (claim_C9 parseStub U0 ["(good)", "<bad>"] ["a", "b"] ["x", "y"]).2 (by decide)

/-- C2, the code evaluated at the failing input: on a parse failure only
the toy tree is substituted; the MRP record at that index still pairs the
toy tree with the original sentence, and the stored toy sentence is never
used — the claim (like the comment in the source) says the toy
tree/sentence pair is substituted. Other indices are unaffected and the
run is not aborted. -/
theorem claim_C2_bug :
    parseStub "<bad>" = none ∧
    U0.delinearize_to_tree parseStub ["<bad>", "(good)"] ["orig one", "orig two"] =
      Except.ok ["TOY", "GOOD"] ∧
    UccaEvaluator.reformat_to_mrp convStub ["TOY", "GOOD"] ["orig one", "orig two"] =
      [convStub "TOY" "orig one" 0, convStub "GOOD" "orig two" 1] ∧
    U0.toy_sent = "Highly recommended" ∧
    convStub "TOY" "orig one" 0 ≠ convStub "TOY" U0.toy_sent 0 := by
  refine ⟨rfl, rfl, rfl, rfl, ?_⟩
  intro h
  simp [convStub, U0] at h

/-- C7: `write_mrp` writes exactly one JSON object per line, in input
order: the written file content, split into its newline-terminated lines,
is precisely the list of JSON serializations of the records, so it has
`len(data)` lines, the i-th line is the serialization of `data[i]`, and
every line is the serialization of a JSON value (hence independently
parseable). -/
theorem claim_C7 (w : World) (save_to : String) (data : List JsonVal) :
    fsLookup ((UccaEvaluator.write_mrp w save_to data).1.fs) save_to =
      some (linesJoin (data.map jsonSerialize)) ∧
    fileLines (linesJoin (data.map jsonSerialize)) = data.map jsonSerialize ∧
    (fileLines (linesJoin (data.map jsonSerialize))).length = data.length ∧
    ∀ line ∈ fileLines (linesJoin (data.map jsonSerialize)),
      ∃ j : JsonVal, line = jsonSerialize j := by
  have hnl : ∀ s ∈ data.map jsonSerialize, '\n' ∉ s.data := by
    intro s hs
    obtain ⟨j, hj, rfl⟩ := List.mem_map.mp hs
    exact nlFree_jsonSerialize j
  have hfl := fileLines_linesJoin (data.map jsonSerialize) hnl
  refine ⟨?_, hfl, by rw [hfl]; simp, ?_⟩
  · simp [UccaEvaluator.write_mrp, fsWrite, World.withFs, fsLookup]
  · intro line hline
    rw [hfl] at hline
    obtain ⟨j, hj, rfl⟩ := List.mem_map.mp hline
    exact ⟨j, rfl⟩

theorem claim_C7_witness :
    fsLookup ((UccaEvaluator.write_mrp W0 "out.mrp"
        [JsonVal.intV 1, JsonVal.strV "a b"]).1.fs) "out.mrp" =
      some (linesJoin ([JsonVal.intV 1, JsonVal.strV "a b"].map jsonSerialize)) ∧
    fileLines (linesJoin ([JsonVal.intV 1, JsonVal.strV "a b"].map jsonSerialize)) =
      ["1", "\"a b\""] := by
  have h := claim_C7 W0 "out.mrp" [JsonVal.intV 1, JsonVal.strV "a b"]
  exact ⟨h.1, h.2.1.trans (by decide)⟩

theorem ucca_run_eval_evaluator {T : Type} (parse_ucca : String → Option T)
    (convert : T → String → Nat → JsonVal) (e : UccaEvaluator) (w : World)
    (n : Option Nat) :
    (UccaEvaluator.run_eval parse_ucca convert e w n).2.1 = e.withStep n := by
  simp only [UccaEvaluator.run_eval]
  repeat' split
  all_goals rfl

theorem compute_ucca_no_read (w : World) (g p : String) :
    ∀ q, Eff.readF q ∉ (UccaEvaluator.compute_ucca w g p).2.2 := by
  intro q
  unfold UccaEvaluator.compute_ucca
  rw [checkOutput_eq]
  by_cases hz : w.procExit (mtoolArgs g p) = 0
  · rw [if_pos hz]
    split
    · rename_i x err w2 tr heq
      simp only [Prod.mk.injEq] at heq
      exact absurd heq.1 (by simp)
    · rename_i x out w2 tr heq
      simp only [Prod.mk.injEq] at heq
      obtain ⟨h1, h2, h3⟩ := heq
      subst h3
      repeat' split
      all_goals simp
  · rw [if_neg hz]
    simp

theorem ucca_run_eval_no_read {T : Type} (parse_ucca : String → Option T)
    (convert : T → String → Nat → JsonVal) (e : UccaEvaluator) (w : World)
    (n : Option Nat) :
    ∀ p, Eff.readF p ∉ (UccaEvaluator.run_eval parse_ucca convert e w n).2.2.2 := by
  intro p
  simp only [UccaEvaluator.run_eval]
  cases hg : UccaEvaluator.delinearize_to_tree parse_ucca (e.withStep n)
      (e.withStep n).gold_graphs (e.withStep n).sents with
  | error err =>
    simp [hg, UccaEvaluator.gen_outputs, UccaEvaluator.save_prediction_raw]
  | ok gold_trees =>
    cases hp2 : UccaEvaluator.delinearize_to_tree parse_ucca (e.withStep n)
        (((e.withStep n).gen_outputs w).1.1) (e.withStep n).sents with
    | error err =>
      simp [hg, hp2, UccaEvaluator.gen_outputs, UccaEvaluator.save_prediction_raw]
    | ok pred_trees =>
      simp only [hg, hp2]
      split
      · rename_i w4 tr4 heq
        intro hmem
        have h4 := compute_ucca_no_read
          (UccaEvaluator.write_mrp
            (UccaEvaluator.write_mrp ((e.withStep n).gen_outputs w).2.1
              (e.withStep n).gold_mrp_save_to
              (UccaEvaluator.reformat_to_mrp convert gold_trees (e.withStep n).sents)).1
            (e.withStep n).pred_mrp_save_to
            (UccaEvaluator.reformat_to_mrp convert pred_trees (e.withStep n).sents)).1
          (e.withStep n).gold_mrp_save_to (e.withStep n).pred_mrp_save_to p
        rw [heq] at h4
        simp only [UccaEvaluator.gen_outputs, UccaEvaluator.save_prediction_raw,
          UccaEvaluator.write_mrp, List.mem_append, List.mem_singleton,
          List.mem_cons, List.not_mem_nil] at hmem h4
        rcases hmem with ((hm | hm) | hm) | hm <;> simp_all
      · rename_i w4 tr4 heq
        intro hmem
        have h4 := compute_ucca_no_read
          (UccaEvaluator.write_mrp
            (UccaEvaluator.write_mrp ((e.withStep n).gen_outputs w).2.1
              (e.withStep n).gold_mrp_save_to
              (UccaEvaluator.reformat_to_mrp convert gold_trees (e.withStep n).sents)).1
            (e.withStep n).pred_mrp_save_to
            (UccaEvaluator.reformat_to_mrp convert pred_trees (e.withStep n).sents)).1
          (e.withStep n).gold_mrp_save_to (e.withStep n).pred_mrp_save_to p
        rw [heq] at h4
        simp only [UccaEvaluator.gen_outputs, UccaEvaluator.save_prediction_raw,
          UccaEvaluator.write_mrp, List.mem_append, List.mem_singleton,
          List.mem_cons, List.not_mem_nil] at hmem h4
        rcases hmem with ((hm | hm) | hm) | hm <;> simp_all

/-- C8: the gold reference and the sentence file are read exactly once, at
construction; `run_eval` returns an evaluator whose `gold_graphs` and
`sents` are unchanged (so no operation it performs — gen_outputs,
delinearize_to_tree, reformat_to_mrp, write_mrp — modifies them), and
neither `gen_outputs` nor a whole `run_eval` ever performs a file read. -/
theorem claim_C8 {T : Type} (parse_ucca : String → Option T)
    (convert : T → String → Nat → JsonVal) (tok : Tokenizer) (model : Model)
    (dataloader : List Batch) (w : World)
    (eval_gold_file sent_path pred_save_dir split src_lang : String)
    (e : UccaEvaluator) (w2 : World) (n : Option Nat)
    (he : (UccaEvaluator.init tok model dataloader w eval_gold_file sent_path
      pred_save_dir split src_lang).1 = Except.ok e) :
    (UccaEvaluator.init tok model dataloader w eval_gold_file sent_path
      pred_save_dir split src_lang).2 =
        [Eff.readF eval_gold_file, Eff.readF sent_path] ∧
    (UccaEvaluator.run_eval parse_ucca convert e w2 n).2.1.gold_graphs = e.gold_graphs ∧
    (UccaEvaluator.run_eval parse_ucca convert e w2 n).2.1.sents = e.sents ∧
    (∀ p, Eff.readF p ∉ (e.gen_outputs w2).2.2) ∧
    (∀ p, Eff.readF p ∉ (UccaEvaluator.run_eval parse_ucca convert e w2 n).2.2.2) := by
  refine ⟨?_, ?_, ?_, ?_, ucca_run_eval_no_read parse_ucca convert e w2 n⟩
  · unfold UccaEvaluator.init at he ⊢
    cases hg : fsLookup w.fs eval_gold_file with
    | none =>
      simp only [hg] at he
      exact absurd he (by simp)
    | some g =>
      cases hs : fsLookup w.fs sent_path with
      | none =>
        simp only [hg, hs] at he
        exact absurd he (by simp)
      | some sc =>
        simp only [hg, hs]
  · rw [ucca_run_eval_evaluator]
    rfl
  · rw [ucca_run_eval_evaluator]
    rfl
  · intro p
    simp [UccaEvaluator.gen_outputs, UccaEvaluator.save_prediction_raw]

theorem claim_C8_witness :
    (UccaEvaluator.init stubTok stubModel [] W1 "gold.graph" "sents.txt" "Eval" "dev" "en").2 =
      [Eff.readF "gold.graph", Eff.readF "sents.txt"] ∧
    (UccaEvaluator.run_eval parseStub convStub U2 W1 (some 3)).2.1.gold_graphs =
      U2.gold_graphs ∧
    (UccaEvaluator.run_eval parseStub convStub U2 W1 (some 3)).2.1.sents = U2.sents ∧
    (∀ p, Eff.readF p ∉ (U2.gen_outputs W1).2.2) ∧
    (∀ p, Eff.readF p ∉ (UccaEvaluator.run_eval parseStub convStub U2 W1 (some 3)).2.2.2) :=
  claim_C8 parseStub convStub stubTok stubModel [] W1 "gold.graph" "sents.txt"
    "Eval" "dev" "en" U2 W1 (some 3) rfl

theorem withStep_gold_mrp (e : UccaEvaluator) (n : Option Nat) :
    (e.withStep n).gold_mrp_save_to = e.gold_mrp_save_to := rfl

theorem withStep_pred_mrp (e : UccaEvaluator) (n : Option Nat) :
    (e.withStep n).pred_mrp_save_to = e.pred_mrp_save_to := rfl

/-- C10: the two MRP output paths are derived at construction from
`pred_save_dir` and `split` only — no step appears in them; `run_eval`
leaves them unchanged for every step value; `write_mrp` opens its target
in write mode, so the new content shadows any previous content of the
same path; and (whenever the toy graph parses, so delinearization cannot
abort) every `run_eval` call emits a write to exactly these two paths,
for every step value. -/
theorem claim_C10 {T : Type} (parse_ucca : String → Option T)
    (convert : T → String → Nat → JsonVal) (tok : Tokenizer) (model : Model)
    (dataloader : List Batch) (w : World)
    (eval_gold_file sent_path pred_save_dir split src_lang : String)
    (e : UccaEvaluator) (w2 : World) (n : Option Nat)
    (he : (UccaEvaluator.init tok model dataloader w eval_gold_file sent_path
      pred_save_dir split src_lang).1 = Except.ok e) :
    e.gold_mrp_save_to = pred_save_dir ++ "/" ++ split ++ ".gold.mrp" ∧
    e.pred_mrp_save_to = pred_save_dir ++ "/" ++ split ++ ".pred.mrp" ∧
    (UccaEvaluator.run_eval parse_ucca convert e w2 n).2.1.gold_mrp_save_to =
      e.gold_mrp_save_to ∧
    (UccaEvaluator.run_eval parse_ucca convert e w2 n).2.1.pred_mrp_save_to =
      e.pred_mrp_save_to ∧
    (∀ (w3 : World) (pth : String) (data : List JsonVal),
      fsLookup ((UccaEvaluator.write_mrp w3 pth data).1.fs) pth =
        some (linesJoin (data.map jsonSerialize))) ∧
    ((parse_ucca e.toy_graph).isSome →
      (∃ c, Eff.writeF e.gold_mrp_save_to c ∈
        (UccaEvaluator.run_eval parse_ucca convert e w2 n).2.2.2) ∧
      (∃ c, Eff.writeF e.pred_mrp_save_to c ∈
        (UccaEvaluator.run_eval parse_ucca convert e w2 n).2.2.2)) := by
  have hfields : e.gold_mrp_save_to = pred_save_dir ++ "/" ++ split ++ ".gold.mrp" ∧
      e.pred_mrp_save_to = pred_save_dir ++ "/" ++ split ++ ".pred.mrp" := by
    unfold UccaEvaluator.init at he
    cases hg : fsLookup w.fs eval_gold_file with
    | none => simp only [hg] at he; exact absurd he (by simp)
    | some g =>
      cases hs : fsLookup w.fs sent_path with
      | none => simp only [hg, hs] at he; exact absurd he (by simp)
      | some sc =>
        simp only [hg, hs, Except.ok.injEq] at he
        subst he
        exact ⟨rfl, rfl⟩
  refine ⟨hfields.1, hfields.2, ?_, ?_, ?_, ?_⟩
  · rw [ucca_run_eval_evaluator]
    rfl
  · rw [ucca_run_eval_evaluator]
    rfl
  · intro w3 pth data
    simp [UccaEvaluator.write_mrp, fsWrite, World.withFs, fsLookup]
  · intro htoy
    obtain ⟨gts, hgts, hlg⟩ := delinLoop_ok parse_ucca (e.withStep n).toy_graph htoy
      ((e.withStep n).gold_graphs.zip (e.withStep n).sents)
    obtain ⟨pts, hpts, hlp⟩ := delinLoop_ok parse_ucca (e.withStep n).toy_graph htoy
      ((((e.withStep n).gen_outputs w2).1.1).zip (e.withStep n).sents)
    have hg2 : UccaEvaluator.delinearize_to_tree parse_ucca (e.withStep n)
        (e.withStep n).gold_graphs (e.withStep n).sents = Except.ok gts := hgts
    have hp2 : UccaEvaluator.delinearize_to_tree parse_ucca (e.withStep n)
        (((e.withStep n).gen_outputs w2).1.1) (e.withStep n).sents = Except.ok pts := hpts
    simp only [UccaEvaluator.run_eval, hg2, hp2]
    constructor
    · refine ⟨linesJoin ((UccaEvaluator.reformat_to_mrp convert gts
        (e.withStep n).sents).map jsonSerialize), ?_⟩
      split
      all_goals simp [UccaEvaluator.write_mrp, withStep_gold_mrp, List.mem_append]
    · refine ⟨linesJoin ((UccaEvaluator.reformat_to_mrp convert pts
        (e.withStep n).sents).map jsonSerialize), ?_⟩
      split
      all_goals simp [UccaEvaluator.write_mrp, withStep_pred_mrp, List.mem_append]

theorem claim_C10_witness :
    U2.gold_mrp_save_to = "Eval" ++ "/" ++ "dev" ++ ".gold.mrp" ∧
    U2.pred_mrp_save_to = "Eval" ++ "/" ++ "dev" ++ ".pred.mrp" ∧
    (UccaEvaluator.run_eval parseStub convStub U2 W1 (some 5)).2.1.gold_mrp_save_to =
      U2.gold_mrp_save_to ∧
    fsLookup ((UccaEvaluator.write_mrp W1 "Eval/dev.gold.mrp" [JsonVal.intV 3]).1.fs)
      "Eval/dev.gold.mrp" = some (linesJoin ([JsonVal.intV 3].map jsonSerialize)) ∧
    (∃ c, Eff.writeF U2.gold_mrp_save_to c ∈
        (UccaEvaluator.run_eval parseStub convStub U2 W1 (some 5)).2.2.2) ∧
    (∃ c, Eff.writeF U2.pred_mrp_save_to c ∈
        (UccaEvaluator.run_eval parseStub convStub U2 W1 (some 5)).2.2.2) := by
  have h := claim_C10 parseStub convStub stubTok stubModel [] W1 "gold.graph" "sents.txt"
    "Eval" "dev" "en" U2 W1 (some 5) rfl
  exact ⟨h.1, h.2.1, h.2.2.1, h.2.2.2.2.1 W1 "Eval/dev.gold.mrp" [JsonVal.intV 3],
    (h.2.2.2.2.2 (by decide)).1, (h.2.2.2.2.2 (by decide)).2⟩

theorem mt_get_bleu_ok (bleu : String → String → ℚ) (preds targets : List String)
    (h : preds.zip targets ≠ []) :
    MTEvaluator.get_bleu bleu preds targets =
      Except.ok (npMean ((preds.zip targets).map (fun q => bleu q.1 q.2))) := by
  unfold MTEvaluator.get_bleu torchMeanStack
  have h2 : ¬(((preds.zip targets).map (fun pt => bleu pt.1 pt.2)).isEmpty = true) := by
    simp [List.isEmpty_iff, h]
  rw [if_neg h2]
  rfl

theorem mtPairsOf_withStep (e : MTEvaluator) (n : Option Nat) (dl : List Batch) :
    mtPairsOf (e.withStep n) dl = mtPairsOf e dl := rfl

theorem mtRunLoop_ok (bleu : String → String → ℚ) (e : MTEvaluator) :
    ∀ (dls : List (String × List Batch)) (w : World),
      (∀ pr ∈ dls, mtPairsOf e pr.2 ≠ []) →
      (mtRunLoop bleu e dls w).1 =
        Except.ok (dls.map (fun pr =>
          npMean ((mtPairsOf e pr.2).map (fun q => bleu q.1 q.2)))) := by
  intro dls
  induction dls with
  | nil => intro w _; rfl
  | cons pr rest ih =>
    intro w h
    obtain ⟨src, dl⟩ := pr
    have h1 : mtPairsOf e dl ≠ [] := h (src, dl) (List.mem_cons_self _ _)
    have hb : (MTEvaluator.eval_translation bleu e w src dl).1 =
        Except.ok (npMean ((mtPairsOf e dl).map (fun q => bleu q.1 q.2))) :=
      mt_get_bleu_ok bleu _ _ h1
    have hrest := ih ((MTEvaluator.eval_translation bleu e w src dl).2.1)
      (fun q hq => h q (List.mem_cons_of_mem _ hq))
    simp only [mtRunLoop, hb, hrest]
    rfl

theorem withStep_mt_dataloaders (e : MTEvaluator) (n : Option Nat) :
    (e.withStep n).mt_dataloaders = e.mt_dataloaders := rfl

/-- C5: `MTEvaluator.run_eval` returns the unweighted arithmetic mean over
source languages of the per-language BLEU, where the per-language BLEU
(`get_bleu`) is the mean of the sentence-level BLEU scores of the aligned
(prediction, target) pairs — scored one pair at a time and then averaged,
not corpus-level — matching the spec-side definition `specMtMeanBleu`. -/
theorem claim_C5 (bleu : String → String → ℚ) (e : MTEvaluator) (w : World) (n : Option Nat)
    (hne : e.mt_dataloaders ≠ [])
    (hp : ∀ pr ∈ e.mt_dataloaders, mtPairsOf e pr.2 ≠ []) :
    (MTEvaluator.run_eval bleu e w n).1 =
      Except.ok (specMtMeanBleu bleu (e.mt_dataloaders.map (fun pr => mtPairsOf e pr.2))) := by
  have hp2 : ∀ pr ∈ e.mt_dataloaders, mtPairsOf (e.withStep n) pr.2 ≠ [] := hp
  have hloop := mtRunLoop_ok bleu (e.withStep n) e.mt_dataloaders w hp2
  have hem : ¬((e.mt_dataloaders.map (fun pr =>
      npMean ((mtPairsOf (e.withStep n) pr.2).map (fun q => bleu q.1 q.2)))).isEmpty = true) := by
    simp [List.isEmpty_iff, hne]
  simp only [MTEvaluator.run_eval, withStep_mt_dataloaders, hloop, mtPairsOf_withStep]
  rw [if_neg (by simpa [mtPairsOf_withStep] using hem)]
  simp [specMtMeanBleu, npMean, List.map_map, Function.comp_def]

theorem claim_C5_witness :
    (MTEvaluator.run_eval bleuStub M1 W0 (some 2)).1 =
      Except.ok (specMtMeanBleu bleuStub
        (M1.mt_dataloaders.map (fun pr => mtPairsOf M1 pr.2))) := by
  refine claim_C5 bleuStub M1 W0 (some 2) (by simp [M1]) ?_
  intro pr hpr
  obtain rfl := List.mem_singleton.mp hpr
  show mtPairsOf M1 [batch2] ≠ []
  have h2 : mtPairsOf M1 [batch2] = [("t3", "t3"), ("t4", "t4")] := rfl
  rw [h2]
  simp
